import Mathlib

/-!
Shallow embedding of the Hele-Hale housing-data pipeline
(`scripts/fetch_housing_data.py`, `scripts/process_housing_data.py`,
`scripts/convert_to_csv.py`) together with proofs about the claims of its
specification.  JSON scalar values appearing in the records are modelled by
`JVal`; absent dictionary keys are modelled by `Option`.
-/

/-- A JSON scalar value as it occurs in the pipeline's records:
`null`, a string, or an integer number. -/
inductive JVal : Type
  | jnull : JVal
  | jstr : String → JVal
  | jint : Int → JVal
deriving DecidableEq, Repr

/-- Python truthiness of a `JVal`: `None` is falsy, a string is truthy iff
non-empty, a number is truthy iff nonzero. -/
def jTruthy : JVal → Bool
  | JVal.jnull => false
  | JVal.jstr s => s ≠ ""
  | JVal.jint n => n ≠ 0

/-! ### Unicode character classes of the CPython runtime

`str.isdigit`, `int`, `float` and the `\d` of compiled `re` patterns (hence
of `_strptime`) are Unicode-aware.  The tables below are extracted from the
CPython 3.11 runtime the scripts run under: every Unicode decimal digit
(category `Nd` — exactly the characters `\d` matches and `int` accepts)
lies in one of 66 aligned blocks of ten consecutive code points with values
0–9; `str.isdigit` additionally accepts 128 digit-class characters (such as
`'²'`) on which `int` raises `ValueError`; and `str.isspace` holds of 29
code points. -/

/-- First code points of the 66 blocks of Unicode decimal digits; code
point `s + v` has decimal value `v` for `0 ≤ v < 10`. -/
def pyDecimalStarts : List Nat :=
  [48, 1632, 1776, 1984, 2406, 2534, 2662, 2790, 2918, 3046, 3174, 3302,
   3430, 3558, 3664, 3792, 3872, 4160, 4240, 6112, 6160, 6470, 6608, 6784,
   6800, 6992, 7088, 7232, 7248, 42528, 43216, 43264, 43472, 43504, 43600,
   44016, 65296, 66720, 68912, 69734, 69872, 69942, 70096, 70384, 70736,
   70864, 71248, 71360, 71472, 71904, 72016, 72784, 73040, 73120, 92768,
   92864, 93008, 120782, 120792, 120802, 120812, 120822, 123200, 123632,
   125264, 130032]

/-- The numeric value of a Unicode decimal digit, `none` for every other
character: the set accepted by `int` and matched by `\d`. -/
def pyDecimalVal (c : Char) : Option Nat :=
  match pyDecimalStarts.find? (fun s => decide (s ≤ c.toNat ∧ c.toNat < s + 10)) with
  | some s => some (c.toNat - s)
  | none => none

/-- Inclusive code-point ranges of the digit-class characters accepted by
`str.isdigit` beyond the decimal digits. -/
def pyDigitExtraRanges : List (Nat × Nat) :=
  [(178, 179), (185, 185), (4969, 4977), (6618, 6618), (8304, 8304),
   (8308, 8313), (8320, 8329), (9312, 9320), (9332, 9340), (9352, 9360),
   (9450, 9450), (9461, 9469), (9471, 9471), (10102, 10110),
   (10112, 10120), (10122, 10130), (68160, 68163), (69216, 69224),
   (69714, 69722), (127232, 127242)]

/-- Python `str.isdigit` on a single character. -/
def pyIsDigit (c : Char) : Bool :=
  (pyDecimalVal c).isSome ||
    pyDigitExtraRanges.any (fun r => decide (r.1 ≤ c.toNat ∧ c.toNat ≤ r.2))

/-- Code points of the characters accepted by Python `str.isspace`. -/
def pySpaceCodes : List Nat :=
  [9, 10, 11, 12, 13, 28, 29, 30, 31, 32, 133, 160, 5760, 8192, 8193,
   8194, 8195, 8196, 8197, 8198, 8199, 8200, 8201, 8202, 8232, 8233, 8239,
   8287, 12288]

/-- Python `str.isspace` on a single character. -/
def pyIsSpace (c : Char) : Bool := pySpaceCodes.contains c.toNat

/-- Accumulator loop of Python `int` over the characters of a slice:
any non-decimal character raises (`ValueError`). -/
def pyIntValGo : Nat → List Char → Option Nat
  | acc, [] => some acc
  | acc, c :: rest =>
    match pyDecimalVal c with
    | none => none
    | some d => pyIntValGo (acc * 10 + d) rest

/-- Python `int` on a slice of digit-class characters: succeeds exactly
when every character is a decimal digit. -/
def pyIntVal (cs : List Char) : Option Nat := pyIntValGo 0 cs

/-- The `Grantor` sub-record of a transfer.  Each field is `none` when the
key is absent from the dictionary. -/
structure Grantor : Type where
  date : Option JVal
  price : Option JVal
  instrumentType : Option JVal
  link : Option JVal
deriving DecidableEq, Repr

/-- A transfer record; `grantor = none` models a transfer dictionary with no
`Grantor` key. -/
structure Transfer : Type where
  grantor : Option Grantor
deriving DecidableEq, Repr

/-- A `TaxMapKey` object (also the shape of the enrichment step's input
records).  `transfers = none` models an object with no `Transfers` key. -/
structure TaxMapKey : Type where
  parcelNumber : Option JVal
  lastSaleDate : Option JVal
  lastSalePrice : Option JVal
  lastSaleInstrument : Option JVal
  transfers : Option (List Transfer)
deriving DecidableEq, Repr

/-- The record produced by `_extract_taxmapkey_fields` on the fetch path. -/
structure FetchedRec : Type where
  parcelNumber : Option JVal
  lastSaleDate : Option JVal
  lastSalePrice : Option JVal
  lastSaleInstrument : Option JVal
  transfers : Option (List Transfer)
deriving DecidableEq, Repr

/-- A persisted enrichment record (`transfer_data` in
`process_housing_data`). -/
structure PRec : Type where
  parcelNumber : Option JVal
  tmk : String
  date : Option JVal
  price : Option JVal
  link : Option JVal
  conveyanceTax : String
deriving DecidableEq, Repr

/-- The composite deduplication key `(ParcelNumber, Date, Price,
BureauOfConveyancesLink)`. -/
structure RecordKey : Type where
  parcel : Option JVal
  date : Option JVal
  price : Option JVal
  link : Option JVal
deriving DecidableEq, Repr

/-- The key computed from a persisted record, as the resume path computes it
from each item loaded back from the output file. -/
def recKey (r : PRec) : RecordKey :=
  ⟨r.parcelNumber, r.date, r.price, r.link⟩

/-- The empty grantor dictionary, the default of `transfer.get('Grantor', \x7b\x7d)`. -/
def emptyGrantor : Grantor := ⟨none, none, none, none⟩

/-- The key computed for a raw input transfer in the enrichment loop. -/
def transferKey (pn : Option JVal) (t : Transfer) : RecordKey :=
  let g := t.grantor.getD emptyGrantor
  ⟨pn, g.date, g.price, g.link⟩

/-- `convert_to_tmk_format` from `process_housing_data.py`: return any
string that is not 13 `str.isdigit` characters unchanged; otherwise build
the TMK from the positional groups, each multi-character group parsed by
`int` — which raises `ValueError` (modelled as `Except.error`) when the
group contains a digit-class character that is not a decimal digit.  The
zone character (position 0) is used verbatim, never parsed. -/
def convert_to_tmk_format (parcel_number : String) : Except Unit String :=
  let cs := parcel_number.toList
  if parcel_number.length ≠ 13 ∨ ¬ (cs.all pyIsDigit ∧ cs ≠ []) then
    Except.ok parcel_number
  else
    let zone := String.mk (cs.take 1)
    match pyIntVal ((cs.drop 1).take 1) with
    | none => Except.error ()
    | some sec =>
      match pyIntVal ((cs.drop 2).take 1) with
      | none => Except.error ()
      | some plat =>
        match pyIntVal ((cs.drop 3).take 3) with
        | none => Except.error ()
        | some parcel =>
          match pyIntVal ((cs.drop 6).take 3) with
          | none => Except.error ()
          | some lot =>
            match pyIntVal ((cs.drop 9).take 4) with
            | none => Except.error ()
            | some cpr =>
              let tmk := zone ++ "-" ++ toString sec ++ "-" ++ toString plat
                ++ "-" ++ toString parcel ++ "-" ++ toString lot
              Except.ok (if cpr ≠ 0 then tmk ++ "-" ++ toString cpr else tmk)


/-! ### The `strptime` date check of the fetch-path selection predicate

`datetime.strptime(s, '%Y-%m-%dT%H:%M:%S%z')` is modelled as a parser that
returns the year when the whole string matches the format and the resulting
field values form a valid aware datetime, and `none` otherwise (Python raises
`ValueError`/`TypeError` in that case, which the caller catches by skipping
the transfer).  Ranges follow CPython: 4-digit year of a valid `datetime`
(so 1–9999), month 1–12, day 1–31 and valid for the month, hour 0–23,
minute 0–59, second 0–59 (the format also matches 60/61 but the `datetime`
constructor then rejects them), and a mandatory UTC offset `Z` or
`[+-]HH[:]MM` optionally followed by `[:]SS[.ffffff]`, strictly smaller than
24 hours in magnitude. -/

/-- Whether an ASCII character lies in a literal regex class `[lo-hi]`
(such classes never match non-ASCII digits). -/
def asciiBetween (lo hi c : Char) : Bool := decide (lo ≤ c ∧ c ≤ hi)

/-- Value of an ASCII digit character. -/
def asciiVal (c : Char) : Nat := c.toNat - 48

/-- `%Y`: exactly four Unicode decimal digits. -/
def parseYear4 : List Char → Option (Nat × List Char)
  | c1 :: c2 :: c3 :: c4 :: rest => do
    let d1 ← pyDecimalVal c1
    let d2 ← pyDecimalVal c2
    let d3 ← pyDecimalVal c3
    let d4 ← pyDecimalVal c4
    pure (d1 * 1000 + d2 * 100 + d3 * 10 + d4, rest)
  | _ => none

/-- `%m`: the regex `1[0-2]|0[1-9]|[1-9]`, ASCII classes only, alternatives
tried in order with fallback to the one-digit form (the character after a
one-digit month is a literal, never a digit, so no further backtracking can
occur). -/
def parseMonth : List Char → Option (Nat × List Char)
  | [] => none
  | c1 :: rest =>
    if c1 = '1' then
      match rest with
      | c2 :: rest2 =>
        if asciiBetween '0' '2' c2 then some (10 + asciiVal c2, rest2)
        else some (1, rest)
      | [] => some (1, [])
    else if c1 = '0' then
      match rest with
      | c2 :: rest2 =>
        if asciiBetween '1' '9' c2 then some (asciiVal c2, rest2) else none
      | [] => none
    else if asciiBetween '2' '9' c1 then some (asciiVal c1, rest)
    else none

/-- `%d`: the regex `3[01]|[12]\d|0[1-9]|[1-9]` — the second digit of the
`[12]\d` alternative may be any Unicode decimal digit. -/
def parseDay : List Char → Option (Nat × List Char)
  | [] => none
  | c1 :: rest =>
    if c1 = '3' then
      match rest with
      | c2 :: rest2 =>
        if asciiBetween '0' '1' c2 then some (30 + asciiVal c2, rest2)
        else some (3, rest)
      | [] => some (3, [])
    else if c1 = '1' ∨ c1 = '2' then
      match rest with
      | c2 :: rest2 =>
        match pyDecimalVal c2 with
        | some d2 => some (asciiVal c1 * 10 + d2, rest2)
        | none => some (asciiVal c1, rest)
      | [] => some (asciiVal c1, [])
    else if c1 = '0' then
      match rest with
      | c2 :: rest2 =>
        if asciiBetween '1' '9' c2 then some (asciiVal c2, rest2) else none
      | [] => none
    else if asciiBetween '4' '9' c1 then some (asciiVal c1, rest)
    else none

/-- `%H`: the regex `2[0-3]|[0-1]\d|\d` — the one-digit form accepts any
Unicode decimal digit. -/
def parseHour : List Char → Option (Nat × List Char)
  | [] => none
  | c1 :: rest =>
    if c1 = '2' then
      match rest with
      | c2 :: rest2 =>
        if asciiBetween '0' '3' c2 then some (20 + asciiVal c2, rest2)
        else some (2, rest)
      | [] => some (2, [])
    else if c1 = '0' ∨ c1 = '1' then
      match rest with
      | c2 :: rest2 =>
        match pyDecimalVal c2 with
        | some d2 => some (asciiVal c1 * 10 + d2, rest2)
        | none => some (asciiVal c1, rest)
      | [] => some (asciiVal c1, [])
    else
      match pyDecimalVal c1 with
      | some d1 => some (d1, rest)
      | none => none

/-- `%M`: the regex `[0-5]\d|\d`. -/
def parseMinute : List Char → Option (Nat × List Char)
  | [] => none
  | c1 :: rest =>
    if asciiBetween '0' '5' c1 then
      match rest with
      | c2 :: rest2 =>
        match pyDecimalVal c2 with
        | some d2 => some (asciiVal c1 * 10 + d2, rest2)
        | none => some (asciiVal c1, rest)
      | [] => some (asciiVal c1, [])
    else
      match pyDecimalVal c1 with
      | some d1 => some (d1, rest)
      | none => none

/-- `%S`: the regex `6[0-1]|[0-5]\d|\d`. -/
def parseSecond : List Char → Option (Nat × List Char)
  | [] => none
  | c1 :: rest =>
    if c1 = '6' then
      match rest with
      | c2 :: rest2 =>
        if asciiBetween '0' '1' c2 then some (60 + asciiVal c2, rest2)
        else some (6, rest)
      | [] => some (6, [])
    else if asciiBetween '0' '5' c1 then
      match rest with
      | c2 :: rest2 =>
        match pyDecimalVal c2 with
        | some d2 => some (asciiVal c1 * 10 + d2, rest2)
        | none => some (asciiVal c1, rest)
      | [] => some (asciiVal c1, [])
    else
      match pyDecimalVal c1 with
      | some d1 => some (d1, rest)
      | none => none

/-- Expect a literal character. -/
def parseLit (ch : Char) : List Char → Option (List Char)
  | c :: rest => if c = ch then some rest else none
  | [] => none

/-- The literal `T` of the format: the whole pattern is compiled with
`IGNORECASE`, so it also matches `t`. -/
def parseTee : List Char → Option (List Char)
  | c :: rest => if c = 'T' ∨ c = 't' then some rest else none
  | [] => none

/-- Consume at most `n` leading Unicode decimal digits, returning how many
were consumed. -/
def takeDigitsUpTo : Nat → List Char → Nat × List Char
  | 0, cs => (0, cs)
  | Nat.succ _, [] => (0, ([] : List Char))
  | Nat.succ n, c :: rest =>
    if (pyDecimalVal c).isSome then
      let (k, r) := takeDigitsUpTo n rest
      (k + 1, r)
    else (0, c :: rest)

/-- Gregorian leap year, as validated by `datetime`. -/
def isLeap (y : Nat) : Bool :=
  y % 4 = 0 && (y % 100 ≠ 0 || y % 400 = 0)

/-- Days in a month of a given year. -/
def daysInMonth (y m : Nat) : Nat :=
  if m = 2 then (if isLeap y then 29 else 28)
  else if m = 4 ∨ m = 6 ∨ m = 9 ∨ m = 11 then 30
  else 31

/-- `\d\d` of the `%z` directive: two Unicode decimal digits (the hour
part, unbounded by the regex). -/
def parseOffHH : List Char → Option (Nat × List Char)
  | c1 :: c2 :: rest => do
    let d1 ← pyDecimalVal c1
    let d2 ← pyDecimalVal c2
    pure (10 * d1 + d2, rest)
  | _ => none

/-- `[0-5]\d` of the `%z` directive: an ASCII digit `0`–`5` followed by any
Unicode decimal digit. -/
def parseOffMM : List Char → Option (Nat × List Char)
  | c1 :: c2 :: rest =>
    if asciiBetween '0' '5' c1 then
      match pyDecimalVal c2 with
      | some d2 => some (asciiVal c1 * 10 + d2, rest)
      | none => none
    else none
  | _ => none

/-- The seconds group of a `%z` offset: `[0-5]\d`, optionally followed by
`.` and one to six fractional digits.  `none` when the group is not fully
present; the caller then leaves the input unconsumed so that the trailing
characters make the whole-string match fail. -/
def parseOffSeconds (cs : List Char) : Option (Nat × List Char) := do
  let (ss, cs1) ← parseOffMM cs
  match cs1 with
  | '.' :: cs2 =>
    let (k, cs3) := takeDigitsUpTo 6 cs2
    if k = 0 then none else pure (ss, cs3)
  | _ => pure (ss, cs1)

/-- The `%z` directive: `Z` (case-sensitive, the regex group is `(?-i:Z)`),
or a sign, two hour digits, two minute digits and an optional seconds
group, where `_strptime` additionally requires the colon usage to be
consistent — `±HHMM[SS[.f]]` or `±HH:MM[:SS[.f]]`.  The total offset must
be strictly smaller than 24 hours for the `timezone` constructor to accept
it. -/
def parseOffset (cs : List Char) : Option (List Char) :=
  match cs with
  | 'Z' :: rest => some rest
  | c :: rest =>
    if c = '+' ∨ c = '-' then do
      let (hh, cs1) ← parseOffHH rest
      match cs1 with
      | ':' :: cs2 => do
        let (mm, cs3) ← parseOffMM cs2
        let (ss, cs4) :=
          match cs3 with
          | ':' :: cs3' => (parseOffSeconds cs3').getD (0, ':' :: cs3')
          | _ => (0, cs3)
        if hh * 3600 + mm * 60 + ss ≥ 86400 then none else pure cs4
      | _ => do
        let (mm, cs3) ← parseOffMM cs1
        let (ss, cs4) := (parseOffSeconds cs3).getD (0, cs3)
        if hh * 3600 + mm * 60 + ss ≥ 86400 then none else pure cs4
    else none
  | [] => none

/-- `datetime.strptime(s, '%Y-%m-%dT%H:%M:%S%z')`, reduced to the only field
the selection predicate reads: returns `some year` when the string matches
the compiled format regex in full and the resulting field values form a
valid aware `datetime`, and `none` otherwise.  The per-field parsers bound
month, day (up to range), hour and minute by construction; the remaining
`datetime` validation is the year being nonzero, the day fitting the
month, and the second being at most 59. -/
def strptimeYear (s : String) : Option Nat := do
  let cs := s.toList
  let (y, cs) ← parseYear4 cs
  if y = 0 then none else
  let cs ← parseLit '-' cs
  let (m, cs) ← parseMonth cs
  let cs ← parseLit '-' cs
  let (d, cs) ← parseDay cs
  if d > daysInMonth y m then none else
  let cs ← parseTee cs
  let (_, cs) ← parseHour cs
  let cs ← parseLit ':' cs
  let (_, cs) ← parseMinute cs
  let cs ← parseLit ':' cs
  let (ss, cs) ← parseSecond cs
  if ss > 59 then none else
  let cs ← parseOffset cs
  match cs with
  | [] => pure y
  | _ => none


/-- The fetch-path per-transfer selection check applied to a `Grantor`
dictionary (`_extract_taxmapkey_fields`, inner loop): all four keys must be
present, the date must parse under `%Y-%m-%dT%H:%M:%S%z` with year 2024, the
price must be a number at least 200000 (comparing a non-number raises
`TypeError`, which is caught by skipping), the instrument type must equal
`"DEED"`, and the link must be truthy. -/
def passes (g : Grantor) : Bool :=
  if g.date.isSome && g.price.isSome && g.instrumentType.isSome && g.link.isSome then
    match g.date with
    | some (JVal.jstr s) =>
      match strptimeYear s with
      | some y =>
        (y == 2024) &&
        (match g.price with
         | some (JVal.jint p) => decide ((200000 : Int) ≤ p)
         | _ => false) &&
        (match g.instrumentType with
         | some (JVal.jstr t) => t == "DEED"
         | _ => false) &&
        (match g.link with
         | some l => jTruthy l
         | _ => false)
      | none => false
    | _ => false
  else false

/-! ### `_extract_taxmapkey_fields` and the batch fetch loop

Fallible dictionary accesses are modelled with `Except Unit`: looking up
`transfer['Grantor']` on a transfer without that key raises `KeyError`,
which is not caught anywhere inside `fetch_results` (its handler only
catches `requests.exceptions.RequestException`), so it aborts the loop. -/

/-- The transfer filter of `_extract_taxmapkey_fields`: walk the `Transfers`
list, keep the transfers accepted by the selection check, and raise
(`KeyError`) on a transfer with no `Grantor` key. -/
def filterTransfers : List Transfer → Except Unit (List Transfer)
  | [] => Except.ok []
  | t :: ts =>
    match t.grantor with
    | none => Except.error ()
    | some g => do
      let rest ← filterTransfers ts
      pure (if passes g then t :: rest else rest)

/-- `_extract_taxmapkey_fields`: project the four base fields and, when a
`Transfers` key is present, replace its value by the filtered list. -/
def _extract_taxmapkey_fields (tk : TaxMapKey) : Except Unit FetchedRec :=
  match tk.transfers with
  | none => Except.ok
      ⟨tk.parcelNumber, tk.lastSaleDate, tk.lastSalePrice, tk.lastSaleInstrument, none⟩
  | some ts => do
      let fts ← filterTransfers ts
      pure ⟨tk.parcelNumber, tk.lastSaleDate, tk.lastSalePrice, tk.lastSaleInstrument, some fts⟩

/-- One item of a successful response's `data` list: `none` models an item
with no `TaxMapKey` key (such items are skipped). -/
abbrev ApiItem := Option TaxMapKey

/-- A successful API response body; `data = none` models a body with no
`data` key (the batch then writes nothing). -/
structure ApiResponse : Type where
  data : Option (List ApiItem)
deriving DecidableEq, Repr

/-- Extract every item of a batch that has a `TaxMapKey` key, propagating a
`KeyError` from any extraction. -/
def extractAll : List ApiItem → Except Unit (List FetchedRec)
  | [] => Except.ok []
  | none :: rest => extractAll rest
  | some tk :: rest => do
      let r ← _extract_taxmapkey_fields tk
      let rs ← extractAll rest
      pure (r :: rs)

/-- Observable events of one `fetch_results` call: a request issued with its
offset and limit, a record written to the output file together with its
`is_last` flag, and an in-band error annotation naming a failed offset. -/
inductive FEvent : Type
  | req (offset limit : Nat)
  | wrote (r : FetchedRec) (isLast : Bool)
  | errAnn (offset : Nat)
deriving DecidableEq, Repr

/-- `num_requests = (total_results + batch_size - 1) // batch_size`. -/
def numRequests (startIdx endIdx batchSize : Nat) : Nat :=
  (endIdx - startIdx + batchSize - 1) / batchSize

/-- The write events of one successful batch: element `j` of the batch is
flagged `is_last` exactly when this is the final batch and `j` is the final
index of the batch's results. -/
def mkWrites (isLastBatch : Bool) (total : Nat) : Nat → List FetchedRec → List FEvent
  | _, [] => []
  | j, r :: rs =>
    FEvent.wrote r (isLastBatch && (j + 1 == total)) :: mkWrites isLastBatch total (j + 1) rs

/-- The body of the `fetch_results` loop over the remaining batch indices.
The oracle maps an offset to the outcome of the HTTP request for that batch:
`Except.error` is a `requests.exceptions.RequestException` (transport or
protocol failure), which is recorded as an error annotation and skipped.  A
`KeyError` escaping `_extract_taxmapkey_fields` aborts the whole loop; the
returned flag is `true` when the loop ran to completion. -/
def fetchBatches (oracle : Nat → Except String ApiResponse)
    (startIdx endIdx batchSize num : Nat) : List Nat → List FEvent × Bool
  | [] => ([], true)
  | i :: rest =>
    let offset := startIdx + i * batchSize
    let limit := min batchSize (endIdx - offset)
    match oracle offset with
    | Except.error _ =>
      let (evs, ok) := fetchBatches oracle startIdx endIdx batchSize num rest
      (FEvent.req offset limit :: FEvent.errAnn offset :: evs, ok)
    | Except.ok resp =>
      match resp.data with
      | none =>
        let (evs, ok) := fetchBatches oracle startIdx endIdx batchSize num rest
        (FEvent.req offset limit :: evs, ok)
      | some items =>
        match extractAll items with
        | Except.error _ => ([FEvent.req offset limit], false)
        | Except.ok batch =>
          let writes := mkWrites (i + 1 == num) batch.length 0 batch
          let (evs, ok) := fetchBatches oracle startIdx endIdx batchSize num rest
          (FEvent.req offset limit :: writes ++ evs, ok)

/-- `fetch_results`: run every batch of the range `[startIdx, endIdx)` in
order.  Returns the event trace and whether the loop completed. -/
def fetch_results (oracle : Nat → Except String ApiResponse)
    (startIdx endIdx batchSize : Nat) : List FEvent × Bool :=
  let num := numRequests startIdx endIdx batchSize
  fetchBatches oracle startIdx endIdx batchSize num (List.range num)

/-- An oracle is clean when every successful response it returns survives
`_extract_taxmapkey_fields` without a `KeyError` (no transfer of any listed
`TaxMapKey` lacks a `Grantor` key). -/
def oracleClean (oracle : Nat → Except String ApiResponse) : Prop :=
  ∀ off resp, oracle off = Except.ok resp →
    ∀ items, resp.data = some items → ∃ l, extractAll items = Except.ok l

/-- Project a request event to its offset and limit. -/
def reqOf : FEvent → Option (Nat × Nat)
  | FEvent.req o l => some (o, l)
  | _ => none

/-- The `(offset, limit)` pairs of the requests issued by one
`fetch_results` call, in order. -/
def reqLog (oracle : Nat → Except String ApiResponse)
    (startIdx endIdx batchSize : Nat) : List (Nat × Nat) :=
  (fetch_results oracle startIdx endIdx batchSize).1.filterMap reqOf

/-! ### The enrichment step `process_housing_data` -/

/-- Mutable state of the enrichment loop: the keys inserted during this run
(most recent first), the records appended so far in order, and the arguments
of every `extract_conveyance_tax` call made so far. -/
structure StState : Type where
  newKeys : List RecordKey
  recs : List PRec
  calls : List JVal
deriving DecidableEq, Repr

/-- The inner loop of `process_housing_data` over the transfers of one input
record.  `exKeys` are the keys loaded from the output file at process start,
`pn` the parcel number value and `tmk` its formatted form.  The oracle is
`extract_conveyance_tax`, which returns a string and never raises. -/
def procTransfers (oracle : JVal → String) (exKeys : List RecordKey)
    (pn : JVal) (tmk : String) : List Transfer → StState → StState
  | [], st => st
  | t :: ts, st =>
    let g := t.grantor.getD emptyGrantor
    let k := transferKey (some pn) t
    if k ∈ exKeys then
      procTransfers oracle exKeys pn tmk ts st
    else if k ∈ st.newKeys then
      procTransfers oracle exKeys pn tmk ts st
    else
      let taxCall : String × List JVal :=
        match g.link with
        | some l => if jTruthy l then (oracle l, [l]) else ("ERROR", [])
        | none => ("ERROR", [])
      let r : PRec := ⟨some pn, tmk, g.date, g.price, g.link, taxCall.1⟩
      procTransfers oracle exKeys pn tmk ts
        ⟨k :: st.newKeys, st.recs ++ [r], st.calls ++ taxCall.2⟩

/-- The outer loop of `process_housing_data` over the input records.  A
parcel number that is not a string makes `convert_to_tmk_format` raise a
`TypeError` (`len` of a non-string), and a 13-digit parcel number with a
non-decimal digit-class character makes it raise a `ValueError` from
`int`; both escape to the top-level handler after the records appended so
far have been written, so the returned flag is `false` in those cases. -/
def procTMKs (oracle : JVal → String) (exKeys : List RecordKey) :
    List TaxMapKey → StState → StState × Bool
  | [], st => (st, true)
  | tk :: rest, st =>
    match tk.parcelNumber with
    | some (JVal.jstr s) =>
      match convert_to_tmk_format s with
      | Except.ok tmk =>
        procTMKs oracle exKeys rest
          (procTransfers oracle exKeys (JVal.jstr s) tmk (tk.transfers.getD []) st)
      | Except.error _ => (st, false)
    | _ => (st, false)

/-- `process_housing_data`, given the records loaded back from the output
file and the input records: the state after the run and the completion
flag. -/
def process_housing_data (oracle : JVal → String) (existing : List PRec)
    (input : List TaxMapKey) : StState × Bool :=
  procTMKs oracle (existing.map recKey) input ⟨[], [], []⟩

/-- The deduplication keys of all transfers occurring in an input file, in
iteration order. -/
def inputKeys (input : List TaxMapKey) : List RecordKey :=
  input.flatMap (fun tk => (tk.transfers.getD []).map (transferKey tk.parcelNumber))

/-- An input file is well-formed when every record carries a string parcel
number on which the TMK formatter succeeds (otherwise the run aborts with
an uncaught `TypeError` or `ValueError` from `convert_to_tmk_format`). -/
def wfInput (input : List TaxMapKey) : Prop :=
  ∀ tk ∈ input, ∃ s tmk, tk.parcelNumber = some (JVal.jstr s) ∧
    convert_to_tmk_format s = Except.ok tmk

/-! ### The enrichment output file, at the level of structural framing

The bytes of the output file are abstracted to a token sequence: the opening
bracket, serialized records, the `,` separators, and the closing bracket.
Each file write of the source maps to one token. -/

/-- One framing token of the enrichment output file. -/
inductive FTok : Type
  | obrk : FTok
  | cbrk : FTok
  | comma : FTok
  | item : PRec → FTok
deriving DecidableEq, Repr

/-- Tail of a JSON-array token parse, positioned right after an element:
either the closing bracket, or a separator followed by another element. -/
def parseArrayTail : List FTok → Option (List PRec)
  | [FTok.cbrk] => some []
  | FTok.comma :: FTok.item r :: rest => (parseArrayTail rest).map (r :: ·)
  | _ => none

/-- Parse a token sequence as a single well-formed JSON array, returning its
elements; `none` models `json.JSONDecodeError`. -/
def parseArray : List FTok → Option (List PRec)
  | [FTok.obrk, FTok.cbrk] => some []
  | FTok.obrk :: FTok.item r :: rest => (parseArrayTail rest).map (r :: ·)
  | _ => none

/-- The tokens appended for the records written during one run: each record
is preceded by a separator unless it is the very first item ever written to
the file (`first_item` bookkeeping of the source). -/
def emitAppends : Bool → List PRec → List FTok
  | _, [] => []
  | firstItem, r :: rs =>
    (if firstItem then [FTok.item r] else [FTok.comma, FTok.item r]) ++ emitAppends false rs

/-- The records occurring in a token sequence, in file order. -/
def toksRecs : List FTok → List PRec
  | [] => []
  | FTok.item r :: rest => r :: toksRecs rest
  | _ :: rest => toksRecs rest

/-- One whole invocation of `process_housing_data` against an output file
with the given token content: if the file parses as a single array, its
records seed the deduplication index and all writes are appended after the
existing bytes; otherwise the file is truncated to a fresh opening bracket.
In both branches the closing bracket is appended at the end (the top-level
exception handler also appends it when the run aborts). -/
def runFileTokens (oracle : JVal → String) (file : List FTok)
    (input : List TaxMapKey) : List FTok :=
  match parseArray file with
  | some recs =>
    let st := (process_housing_data oracle recs input).1
    file ++ emitAppends (recs.length == 0) st.recs ++ [FTok.cbrk]
  | none =>
    let st := (process_housing_data oracle [] input).1
    FTok.obrk :: emitAppends true st.recs ++ [FTok.cbrk]

/-- The records present in the output file after a sequence of enrichment
runs against the same file.  Each run is an input list together with a flag
telling whether the file parsed at process start; when it did not, the file
is truncated and the run starts from an empty index (this over-approximates
the source, where the flag is determined by the file content). -/
def multiRun (oracle : JVal → String) (runs : List (Bool × List TaxMapKey)) : List PRec :=
  runs.foldl
    (fun file run =>
      let base := if run.1 then file else []
      base ++ (process_housing_data oracle base run.2).1.recs)
    []

/-! ### The flattened spreadsheet export `convert_to_csv` -/

/-- Remove every comma, as `str.replace(',', '')`. -/
def decomma (s : String) : String :=
  String.mk (s.toList.filter (· ≠ ','))

/-- Continuation of a digit run after at least one digit was consumed: an
underscore may be consumed only when a digit follows it directly. -/
def pyDigitRunGo : List Char → Nat × List Char
  | '_' :: c :: rest =>
    if c.isDigit then
      let (k, r) := pyDigitRunGo rest
      (k + 2, r)
    else (0, '_' :: c :: rest)
  | c :: rest =>
    if c.isDigit then
      let (k, r) := pyDigitRunGo rest
      (k + 1, r)
    else (0, c :: rest)
  | [] => (0, [])

/-- A run of decimal digits in which underscores may occur only between two
digits, as in Python numeric literals accepted by `float`.  Consumes the
longest such run and returns how many characters were consumed. -/
def pyDigitRun : List Char → Nat × List Char
  | c :: rest =>
    if c.isDigit then
      let (k, r) := pyDigitRunGo rest
      (k + 1, r)
    else (0, c :: rest)
  | [] => (0, [])

/-- Case-insensitive match of a literal ASCII word. -/
def matchWordCI : List Char → List Char → Option (List Char)
  | [], cs => some cs
  | _ :: _, [] => none
  | w :: ws, c :: cs => if c.toLower = w then matchWordCI ws cs else none

/-- The exponent part of a Python float literal: `e` or `E`, an optional
sign, and a digit run. -/
def pyExponent (cs : List Char) : Option (List Char) :=
  match cs with
  | c :: rest =>
    if c = 'e' ∨ c = 'E' then
      let rest1 := match rest with
        | s :: r => if s = '+' ∨ s = '-' then r else rest
        | [] => rest
      let (k, r) := pyDigitRun rest1
      if k = 0 then none else some r
    else none
  | [] => none

/-- The mantissa of a Python float literal: digits, digits `.` optional
digits, or `.` digits. -/
def pyMantissa (cs : List Char) : Option (List Char) :=
  match cs with
  | '.' :: rest =>
    let (k, r) := pyDigitRun rest
    if k = 0 then none else some r
  | _ =>
    let (k, r) := pyDigitRun cs
    if k = 0 then none
    else
      match r with
      | '.' :: rest2 =>
        let (_, r2) := pyDigitRun rest2
        some r2
      | _ => some r

/-- `_PyUnicode_TransformDecimalAndSpaceToASCII`, applied by `float` before
parsing: a Unicode decimal digit becomes its ASCII digit, any other
non-ASCII character becomes a space if it is Unicode whitespace and `'?'`
otherwise, and ASCII characters pass through. -/
def pyTransformChar (c : Char) : Char :=
  match pyDecimalVal c with
  | some d => Char.ofNat (48 + d)
  | none =>
    if c.toNat < 128 then c
    else if pyIsSpace c then ' ' else '?'

/-- Whether Python `float(s)` succeeds: after the decimal-and-space
transformation, optional surrounding ASCII whitespace, an optional sign,
and either `inf`, `infinity`, `nan` (case-insensitively) or a numeric
literal with optional exponent. -/
def pyFloatValid (s : String) : Bool :=
  let ws : List Char := [' ', '\t', '\n', '\r', '\x0b', '\x0c']
  let tcs := s.toList.map pyTransformChar
  let cs := (tcs.dropWhile (· ∈ ws)).reverse.dropWhile (· ∈ ws) |>.reverse
  let cs1 := match cs with
    | c :: rest => if c = '+' ∨ c = '-' then rest else cs
    | [] => cs
  match matchWordCI "infinity".toList cs1 with
  | some [] => true
  | _ =>
    match matchWordCI "inf".toList cs1 with
    | some [] => true
    | _ =>
      match matchWordCI "nan".toList cs1 with
      | some [] => true
      | _ =>
        match pyMantissa cs1 with
        | none => false
        | some r =>
          match pyExponent r with
          | some r2 => r2.isEmpty
          | none => r.isEmpty


/-- The `ConveyanceTax` cell written by `convert_to_csv`: the tags `"ERROR"`
and `"Not found"` normalize to `"ERROR"`; otherwise commas are removed and
the result is kept when `float` accepts it, else it normalizes to
`"ERROR"`. -/
def cleanTax (s : String) : String :=
  if s = "ERROR" ∨ s = "Not found" then "ERROR"
  else
    let s' := decomma s
    if pyFloatValid s' then s' else "ERROR"

/-- How the `csv` writer renders one of the other cells: `None` becomes the
empty field, numbers are rendered in decimal, strings are kept (an absent
key was already replaced by `''` by `item.get(..., '')`). -/
def cellStr : Option JVal → String
  | none => ""
  | some JVal.jnull => ""
  | some (JVal.jstr s) => s
  | some (JVal.jint n) => toString n

/-- `convert_to_csv`: the header row followed by one row per input record
with columns `ParcelNumber, Date, Price, ConveyanceTax`. -/
def convert_to_csv (data : List PRec) : List (List String) :=
  ["ParcelNumber", "Date", "Price", "ConveyanceTax"] ::
    data.map (fun item =>
      [cellStr item.parcelNumber, cellStr item.date, cellStr item.price,
        cleanTax item.conveyanceTax])

/-! ### Specification-side definitions

These restate parts of the spec in its own words, to be compared with the
definitions embedded from the source. -/

/-- The spec's validity condition for the TMK formatter: the string is
exactly 13 characters long and contains no non-digit character (digit in
the Python `str.isdigit` sense). -/
def tmkValid (s : String) : Bool :=
  s.length == 13 && s.toList.all pyIsDigit

/-- Value of a decimal digit character (Unicode decimal value). -/
def dv (c : Char) : Nat := (pyDecimalVal c).getD 0

/-- The spec's formatted TMK, built from position 0, position 1, position 2,
positions 3–5, positions 6–8 and positions 9–12 of the string, the
multi-digit groups parsed as integers to drop leading zeros, with the CPR
segment appended exactly when its value is nonzero. -/
def tmkSpecFormat (s : String) : String :=
  let c := fun i => s.toList.getD i '0'
  let zone := String.mk [c 0]
  let sec := dv (c 1)
  let plat := dv (c 2)
  let parcel := dv (c 3) * 100 + dv (c 4) * 10 + dv (c 5)
  let lot := dv (c 6) * 100 + dv (c 7) * 10 + dv (c 8)
  let cpr := dv (c 9) * 1000 + dv (c 10) * 100 + dv (c 11) * 10 + dv (c 12)
  let tmk := zone ++ "-" ++ toString sec ++ "-" ++ toString plat ++ "-"
    ++ toString parcel ++ "-" ++ toString lot
  if cpr ≠ 0 then tmk ++ "-" ++ toString cpr else tmk

/-! ### Concrete evaluations validating the embedded parsers -/

example : convert_to_tmk_format "1234567890000" = Except.ok "1-2-3-456-789" := rfl
example : convert_to_tmk_format "1234567890007" = Except.ok "1-2-3-456-789-7" := rfl
example : convert_to_tmk_format "12345" = Except.ok "12345" := rfl
example : convert_to_tmk_format "12345678901a3" = Except.ok "12345678901a3" := rfl
example : convert_to_tmk_format "١١١١١١١١١١١١١" =
  Except.ok "١-1-1-111-111-1111" := rfl
example : convert_to_tmk_format "²²²²²²²²²²²²²" = Except.error () := rfl
example : convert_to_tmk_format "²234567890000" = Except.ok "²-2-3-456-789" := rfl
example : pyIsDigit '²' = true := by decide
example : pyDecimalVal '²' = none := by decide
example : pyDecimalVal '١' = some 1 := by decide
example : strptimeYear "2024-06-15T00:00:00-10:00" = some 2024 := by decide
example : strptimeYear "2023-12-31T23:59:59-10:00" = some 2023 := by decide
example : strptimeYear "2024-02-30T00:00:00Z" = none := by decide
example : strptimeYear "2024-06-15T00:00:00" = none := by decide
example : strptimeYear "2024-6-5T1:2:3+0000" = some 2024 := by decide
example : strptimeYear "not a date" = none := by decide
example : strptimeYear "2024-06-15T00:00:00-10:00 " = none := by decide
example : strptimeYear "2024-06-15T00:00:00+10" = none := by decide
example : strptimeYear "2024-06-15T00:00:00+1030" = some 2024 := by decide
example : strptimeYear "2024-06-15T00:00:00+10:30:15" = some 2024 := by decide
example : strptimeYear "2024-06-15T00:00:00+10:30:15.123456" = some 2024 := by decide
example : strptimeYear "2024-06-15T00:00:00+10:30:15.1234567" = none := by decide
example : strptimeYear "2024-06-15T00:00:00+24:00" = none := by decide
example : strptimeYear "2024-06-15T00:00:00+23:59" = some 2024 := by decide
example : strptimeYear "2024-06-15T00:00:00+2359" = some 2024 := by decide
example : strptimeYear "2024-06-15T00:00:00+10:3015" = none := by decide
example : strptimeYear "2024-06-15T00:00:00+1030:15" = none := by decide
example : strptimeYear "2024-06-15T00:00:00+10:60" = none := by decide
example : strptimeYear "2024-06-15T00:00:00z" = none := by decide
example : strptimeYear "2024-06-15T00:00:60+00:00" = none := by decide
example : strptimeYear "0000-06-15T00:00:00+00:00" = none := by decide
example : strptimeYear "2024-06-15T24:00:00+00:00" = none := by decide
example : strptimeYear "2024-02-29T00:00:00+00:00" = some 2024 := by decide
example : strptimeYear "2023-02-29T00:00:00+00:00" = none := by decide
example : strptimeYear "2024-06-15T00:00:00+99:00" = none := by decide
example : strptimeYear "2024-06-15T00:00:00-00:00" = some 2024 := by decide
example : strptimeYear "2024-06-15t00:00:00-10:00" = some 2024 := by decide
example : strptimeYear "٢٠٢٤-06-15T00:00:00+00:00" = some 2024 := by decide
example : strptimeYear "2024-٠6-15T00:00:00+00:00" = none := by decide
example : strptimeYear "2024-1٢-15T00:00:00+00:00" = none := by decide
example : strptimeYear "2024-06-1٥T00:00:00+00:00" = some 2024 := by decide
example : strptimeYear "2024-06-3٥T00:00:00Z" = none := by decide
example : strptimeYear "2024-06-15T٢:00:00+00:00" = some 2024 := by decide
example : strptimeYear "2024-06-15T2٤:00:00Z" = none := by decide
example : strptimeYear "2024-06-15T10:5٩:00+00:00" = some 2024 := by decide
example : strptimeYear "2024-06-15T10:٥9:00+00:00" = none := by decide
example : strptimeYear "2024-06-15T10:00:6١+00:00" = none := by decide
example : strptimeYear "2024-06-15T10:00:00+٠٠:30" = some 2024 := by decide
example : strptimeYear "2024-06-15T10:00:00+00:٣0" = none := by decide
example : strptimeYear "2024-06-15T10:00:00+00:3٠" = some 2024 := by decide
example : strptimeYear "2024-06-15T10:00:00+10:30:1٥" = some 2024 := by decide
example : strptimeYear "2024-06-15T10:00:00+10:30:٥5" = none := by decide
example : pyFloatValid "1234.50" = true := by decide
example : pyFloatValid "1,234.50" = false := by decide
example : pyFloatValid "" = false := by decide
example : pyFloatValid " -1_0.5e+3 " = true := by decide
example : pyFloatValid "Not found" = false := by decide
example : pyFloatValid "nan" = true := by decide
example : pyFloatValid "1_" = false := by decide
example : pyFloatValid "." = false := by decide
example : pyFloatValid "1." = true := by decide
example : pyFloatValid "١٢٣" = true := by decide
example : pyFloatValid "1٠" = true := by decide
example : pyFloatValid "١_٠" = true := by decide
example : pyFloatValid "１５" = true := by decide
example : pyFloatValid "１．５" = false := by decide
example : pyFloatValid "²" = false := by decide
example : pyFloatValid " 1.5 " = true := by decide
example : pyFloatValid "  2  " = true := by decide
example : pyFloatValid "nan " = true := by decide
example : pyFloatValid "\x1c2" = false := by decide
example : cleanTax "١٢٣" = "١٢٣" := by decide

/-! ## Helper lemmas -/

theorem toList_length (s : String) : s.toList.length = s.length := rfl

theorem exists_thirteen_chars (s : String) (h : s.length = 13) :
    ∃ c0 c1 c2 c3 c4 c5 c6 c7 c8 c9 c10 c11 c12 : Char,
      s.toList = [c0, c1, c2, c3, c4, c5, c6, c7, c8, c9, c10, c11, c12] := by
  have hl : s.toList.length = 13 := by rw [toList_length, h]
  obtain ⟨c0, t0, e0⟩ := List.exists_of_length_succ _ hl
  have hl0 : t0.length = 12 := by have := hl; rw [e0] at this; simpa using this
  obtain ⟨c1, t1, e1⟩ := List.exists_of_length_succ _ hl0
  have hl1 : t1.length = 11 := by have := hl0; rw [e1] at this; simpa using this
  obtain ⟨c2, t2, e2⟩ := List.exists_of_length_succ _ hl1
  have hl2 : t2.length = 10 := by have := hl1; rw [e2] at this; simpa using this
  obtain ⟨c3, t3, e3⟩ := List.exists_of_length_succ _ hl2
  have hl3 : t3.length = 9 := by have := hl2; rw [e3] at this; simpa using this
  obtain ⟨c4, t4, e4⟩ := List.exists_of_length_succ _ hl3
  have hl4 : t4.length = 8 := by have := hl3; rw [e4] at this; simpa using this
  obtain ⟨c5, t5, e5⟩ := List.exists_of_length_succ _ hl4
  have hl5 : t5.length = 7 := by have := hl4; rw [e5] at this; simpa using this
  obtain ⟨c6, t6, e6⟩ := List.exists_of_length_succ _ hl5
  have hl6 : t6.length = 6 := by have := hl5; rw [e6] at this; simpa using this
  obtain ⟨c7, t7, e7⟩ := List.exists_of_length_succ _ hl6
  have hl7 : t7.length = 5 := by have := hl6; rw [e7] at this; simpa using this
  obtain ⟨c8, t8, e8⟩ := List.exists_of_length_succ _ hl7
  have hl8 : t8.length = 4 := by have := hl7; rw [e8] at this; simpa using this
  obtain ⟨c9, t9, e9⟩ := List.exists_of_length_succ _ hl8
  have hl9 : t9.length = 3 := by have := hl8; rw [e9] at this; simpa using this
  obtain ⟨c10, t10, e10⟩ := List.exists_of_length_succ _ hl9
  have hl10 : t10.length = 2 := by have := hl9; rw [e10] at this; simpa using this
  obtain ⟨c11, t11, e11⟩ := List.exists_of_length_succ _ hl10
  have hl11 : t11.length = 1 := by have := hl10; rw [e11] at this; simpa using this
  obtain ⟨c12, t12, e12⟩ := List.exists_of_length_succ _ hl11
  have hl12 : t12.length = 0 := by have := hl11; rw [e12] at this; simpa using this
  have e13 : t12 = [] := List.length_eq_zero.mp hl12
  refine ⟨c0, c1, c2, c3, c4, c5, c6, c7, c8, c9, c10, c11, c12, ?_⟩
  rw [e0, e1, e2, e3, e4, e5, e6, e7, e8, e9, e10, e11, e12, e13]

/-! ## Claims -/

theorem pyIntValGo_some_all :
    ∀ (cs : List Char) (acc v : Nat), pyIntValGo acc cs = some v →
      ∀ c ∈ cs, (pyDecimalVal c).isSome := by
  intro cs
  induction cs with
  | nil => intro acc v h c hc; simp at hc
  | cons x rest ih =>
    intro acc v h c hc
    cases hx : pyDecimalVal x with
    | none => simp [pyIntValGo, hx] at h
    | some d =>
      rcases List.mem_cons.mp hc with rfl | hc'
      · simp [hx]
      · have hrest : pyIntValGo (acc * 10 + d) rest = some v := by
          simpa [pyIntValGo, hx] using h
        exact ih _ _ hrest c hc'

theorem pyIntVal_some_all (cs : List Char) (v : Nat)
    (h : pyIntVal cs = some v) : ∀ c ∈ cs, (pyDecimalVal c).isSome :=
  pyIntValGo_some_all cs 0 v h

/-- Claim C7 as originally stated fails on the code: the 13-character
digit-class string `"²²²²²²²²²²²²²"` satisfies the claim's own condition
for being formatted (13 characters, all of them digits in Python's sense),
yet the formatter raises `ValueError` from `int('²')` instead of returning
a string — the function is not total and has a failure mode. -/
theorem claim_C7_cex :
    ("²²²²²²²²²²²²²".length = 13 ∧ tmkValid "²²²²²²²²²²²²²" = true) ∧
    convert_to_tmk_format "²²²²²²²²²²²²²" = Except.error () :=
  ⟨⟨by decide, by decide⟩, rfl⟩

/-- Claim C7, amended: the TMK formatter returns `s` unchanged when `s` is
not exactly 13 characters long or contains a character that is not a digit
in Python's `str.isdigit` sense; when the 13 characters beyond position 0
are all decimal digits it returns the zone character verbatim followed by
the section, plat, parcel and lot groups from positions 1, 2, 3–5 and 6–8,
hyphen-separated with the multi-digit groups parsed as integers, appending
the CPR group from positions 9–12 exactly when its value is nonzero; but
when some digit-class character beyond position 0 is not a decimal digit,
`int` raises `ValueError` — the function is not total. -/
theorem claim_C7 (s : String) :
    (tmkValid s = false → convert_to_tmk_format s = Except.ok s) ∧
    (tmkValid s = true → (∀ c ∈ s.toList.drop 1, (pyDecimalVal c).isSome) →
      convert_to_tmk_format s = Except.ok (tmkSpecFormat s)) ∧
    (tmkValid s = true → (∃ c ∈ s.toList.drop 1, pyDecimalVal c = none) →
      convert_to_tmk_format s = Except.error ()) := by
  refine ⟨?_, ?_, ?_⟩
  · intro h
    unfold tmkValid at h
    unfold convert_to_tmk_format
    rw [if_pos]
    simp only [Bool.and_eq_false_iff, beq_iff_eq] at h
    rcases h with h | h
    · exact Or.inl (by simpa using h)
    · refine Or.inr ?_
      intro hc
      rw [List.all_eq_false] at h
      obtain ⟨x, hx, hnx⟩ := h
      exact hnx (List.all_eq_true.mp hc.1 x hx)
  · intro h hdec
    unfold tmkValid at h
    simp only [Bool.and_eq_true, beq_iff_eq] at h
    obtain ⟨hlen, hdig⟩ := h
    obtain ⟨c0, c1, c2, c3, c4, c5, c6, c7, c8, c9, c10, c11, c12, hcs⟩ :=
      exists_thirteen_chars s hlen
    rw [hcs] at hdec
    simp only [List.drop, List.mem_cons, forall_eq_or_imp, List.not_mem_nil,
      false_implies, and_true] at hdec
    obtain ⟨h1, h2, h3, h4, h5, h6, h7, h8, h9, h10, h11, h12, -⟩ := hdec
    obtain ⟨d1, hd1⟩ := Option.isSome_iff_exists.mp h1
    obtain ⟨d2, hd2⟩ := Option.isSome_iff_exists.mp h2
    obtain ⟨d3, hd3⟩ := Option.isSome_iff_exists.mp h3
    obtain ⟨d4, hd4⟩ := Option.isSome_iff_exists.mp h4
    obtain ⟨d5, hd5⟩ := Option.isSome_iff_exists.mp h5
    obtain ⟨d6, hd6⟩ := Option.isSome_iff_exists.mp h6
    obtain ⟨d7, hd7⟩ := Option.isSome_iff_exists.mp h7
    obtain ⟨d8, hd8⟩ := Option.isSome_iff_exists.mp h8
    obtain ⟨d9, hd9⟩ := Option.isSome_iff_exists.mp h9
    obtain ⟨d10, hd10⟩ := Option.isSome_iff_exists.mp h10
    obtain ⟨d11, hd11⟩ := Option.isSome_iff_exists.mp h11
    obtain ⟨d12, hd12⟩ := Option.isSome_iff_exists.mp h12
    unfold convert_to_tmk_format tmkSpecFormat
    rw [hcs, if_neg]
    · simp only [List.take, List.drop, List.getD, List.getElem?_cons_zero,
        List.getElem?_cons_succ, pyIntVal, pyIntValGo, hd1, hd2, hd3, hd4,
        hd5, hd6, hd7, hd8, hd9, hd10, hd11, hd12, dv, Option.getD_some]
      have ep : ((0 * 10 + d3) * 10 + d4) * 10 + d5 =
          d3 * 100 + d4 * 10 + d5 := by ring
      have el : ((0 * 10 + d6) * 10 + d7) * 10 + d8 =
          d6 * 100 + d7 * 10 + d8 := by ring
      have ec : (((0 * 10 + d9) * 10 + d10) * 10 + d11) * 10 + d12 =
          d9 * 1000 + d10 * 100 + d11 * 10 + d12 := by ring
      simp only [Nat.zero_mul, Nat.zero_add] at ep el ec ⊢
      rw [ep, el, ec]
      simp only [List.getD, List.get?, dv, hd1, hd2, hd3, hd4, hd5, hd6,
        hd7, hd8, hd9, hd10, hd11, hd12, Option.getD_some]
    · rw [hcs] at hdig
      simp only [ne_eq, not_or, not_not]
      refine ⟨by simp [hlen], ?_, by simp⟩
      simpa using hdig
  · intro h hbad
    unfold tmkValid at h
    simp only [Bool.and_eq_true, beq_iff_eq] at h
    obtain ⟨hlen, hdig⟩ := h
    obtain ⟨c0, c1, c2, c3, c4, c5, c6, c7, c8, c9, c10, c11, c12, hcs⟩ :=
      exists_thirteen_chars s hlen
    obtain ⟨cbad, hmem, hnone⟩ := hbad
    rw [hcs] at hmem
    simp only [List.drop_succ_cons, List.drop_zero] at hmem
    unfold convert_to_tmk_format
    rw [hcs, if_neg]
    · simp only [List.take, List.drop]
      cases e1 : pyIntVal [c1] with
      | none => simp [e1]
      | some v1 =>
        simp only [e1]
        cases e2 : pyIntVal [c2] with
        | none => simp [e2]
        | some v2 =>
          simp only [e2]
          cases e3 : pyIntVal [c3, c4, c5] with
          | none => simp [e3]
          | some v3 =>
            simp only [e3]
            cases e4 : pyIntVal [c6, c7, c8] with
            | none => simp [e4]
            | some v4 =>
              simp only [e4]
              cases e5 : pyIntVal [c9, c10, c11, c12] with
              | none => simp [e5]
              | some v5 =>
                exfalso
                have a1 := pyIntVal_some_all _ _ e1
                have a2 := pyIntVal_some_all _ _ e2
                have a3 := pyIntVal_some_all _ _ e3
                have a4 := pyIntVal_some_all _ _ e4
                have a5 := pyIntVal_some_all _ _ e5
                have hfalse : ¬ (pyDecimalVal cbad).isSome = true := by
                  simp [hnone]
                simp only [List.mem_cons, List.not_mem_nil, or_false] at hmem
                rcases hmem with rfl | rfl | rfl | rfl | rfl | rfl | rfl |
                  rfl | rfl | rfl | rfl | rfl
                · exact hfalse (a1 cbad (by simp))
                · exact hfalse (a2 cbad (by simp))
                · exact hfalse (a3 cbad (by simp))
                · exact hfalse (a3 cbad (by simp))
                · exact hfalse (a3 cbad (by simp))
                · exact hfalse (a4 cbad (by simp))
                · exact hfalse (a4 cbad (by simp))
                · exact hfalse (a4 cbad (by simp))
                · exact hfalse (a5 cbad (by simp))
                · exact hfalse (a5 cbad (by simp))
                · exact hfalse (a5 cbad (by simp))
                · exact hfalse (a5 cbad (by simp))
    · rw [hcs] at hdig
      simp only [ne_eq, not_or, not_not]
      refine ⟨by simp [hlen], ?_, by simp⟩
      simpa using hdig

/-- Closed instances of the amended claim C7: a malformed string passes
through, a 13-digit ASCII string with nonzero CPR formats, and a 13-digit
string with a non-decimal digit-class character beyond position 0 makes
the formatter raise. -/
theorem claim_C7_witness :
    (tmkValid "12a" = false ∧ convert_to_tmk_format "12a" = Except.ok "12a") ∧
    (tmkValid "1234567890007" = true ∧
      convert_to_tmk_format "1234567890007" =
        Except.ok (tmkSpecFormat "1234567890007")) ∧
    (tmkValid "1²34567890000" = true ∧
      convert_to_tmk_format "1²34567890000" = Except.error ()) := by
  refine ⟨⟨by decide, (claim_C7 "12a").1 (by decide)⟩,
    ⟨by decide, (claim_C7 "1234567890007").2.1 (by decide) (by decide)⟩,
    ⟨by decide, (claim_C7 "1²34567890000").2.2 (by decide) ?_⟩⟩
  exact ⟨'²', by decide, by decide⟩


/-- Claim C8: in the flattened export, a comma-containing numeric
`ConveyanceTax` string such as `"1,234.50"` is written comma-free, while
`"Not found"`, `"ERROR"` and every string that is not float-parseable after
comma removal are normalized to the literal `ERROR`; the output is the
header row followed by one row per persisted record with columns
`ParcelNumber, Date, Price, ConveyanceTax`. -/
theorem claim_C8 :
    cleanTax "1,234.50" = "1234.50" ∧
    cleanTax "Not found" = "ERROR" ∧
    cleanTax "ERROR" = "ERROR" ∧
    (∀ s : String, pyFloatValid (decomma s) = false → cleanTax s = "ERROR") ∧
    ∀ data : List PRec,
      (convert_to_csv data).length = data.length + 1 ∧
      (convert_to_csv data)[0]? =
        some ["ParcelNumber", "Date", "Price", "ConveyanceTax"] ∧
      ∀ (i : Nat) (item : PRec), data[i]? = some item →
        (convert_to_csv data)[i + 1]? =
          some [cellStr item.parcelNumber, cellStr item.date,
            cellStr item.price, cleanTax item.conveyanceTax] := by
  refine ⟨by decide, by decide, by decide, ?_, ?_⟩
  · intro s h
    unfold cleanTax
    split
    · rfl
    · simp [h]
  · intro data
    refine ⟨by simp [convert_to_csv], by simp [convert_to_csv], ?_⟩
    intro i item h
    simp [convert_to_csv, h]

/-- Closed instance of claim C8: a non-numeric tax value in a singleton
export normalizes to `ERROR` and yields exactly one data row. -/
theorem claim_C8_witness :
    (pyFloatValid (decomma "bad tax") = false ∧ cleanTax "bad tax" = "ERROR") ∧
    (convert_to_csv [⟨some (JVal.jstr "123"), "t", some (JVal.jstr "d"),
        some (JVal.jint 5), none, "bad tax"⟩])[1]? =
      some ["123", "d", "5", "ERROR"] := by
  have h := (claim_C8.2.2.2.2
    [⟨some (JVal.jstr "123"), "t", some (JVal.jstr "d"),
      some (JVal.jint 5), none, "bad tax"⟩]).2.2 0
    ⟨some (JVal.jstr "123"), "t", some (JVal.jstr "d"),
      some (JVal.jint 5), none, "bad tax"⟩ (by decide)
  exact ⟨⟨by decide, claim_C8.2.2.2.1 "bad tax" (by decide)⟩,
    by simpa [cellStr, cleanTax, decomma, pyFloatValid] using h⟩

set_option maxRecDepth 4000 in
/-- Claim C6: the selection predicate accepts a transfer's grantor exactly
when the date is a string that parses under `%Y-%m-%dT%H:%M:%S%z` (with
CPython's `IGNORECASE`, Unicode-digit regex semantics and `datetime`
validation) with year 2024, the price is a number of at least 200000, the
instrument type equals `"DEED"`, and the document link is present and
truthy (for a string: non-empty); in every other case — including a
malformed or unparsable date — the transfer is excluded with no error. -/
theorem claim_C6 (g : Grantor) :
    passes g = true ↔
      (∃ s, g.date = some (JVal.jstr s) ∧ strptimeYear s = some 2024) ∧
      (∃ p : Int, g.price = some (JVal.jint p) ∧ 200000 ≤ p) ∧
      g.instrumentType = some (JVal.jstr "DEED") ∧
      (∃ l, g.link = some l ∧ jTruthy l = true) := by
  obtain ⟨d, p, it, l⟩ := g
  cases d with
  | none => simp [passes]
  | some dval =>
    cases dval with
    | jnull => simp [passes]
    | jint n => simp [passes]
    | jstr s =>
      cases hy : strptimeYear s with
      | none => simp [passes, hy]
      | some y =>
        cases p with
        | none => simp [passes, hy]
        | some pval =>
          cases pval with
          | jnull => simp [passes, hy]
          | jstr ps => simp [passes, hy]
          | jint pn =>
            cases it with
            | none => simp [passes, hy]
            | some itval =>
              cases itval with
              | jnull => simp [passes, hy]
              | jint itn => simp [passes, hy]
              | jstr its =>
                cases l with
                | none => simp [passes, hy]
                | some lv =>
                  simp [passes, hy, and_assoc]

/-- Closed instances of claim C6: the spec's rejected transfer dated
2023-12-31T23:59:59-10:00 and accepted transfer dated
2024-06-15T00:00:00-10:00 with price 250000, instrument `"DEED"` and a
non-empty link. -/
theorem claim_C6_witness :
    passes ⟨some (JVal.jstr "2023-12-31T23:59:59-10:00"),
      some (JVal.jint 250000), some (JVal.jstr "DEED"),
      some (JVal.jstr "http://doc")⟩ = false ∧
    passes ⟨some (JVal.jstr "2024-06-15T00:00:00-10:00"),
      some (JVal.jint 250000), some (JVal.jstr "DEED"),
      some (JVal.jstr "http://doc")⟩ = true := by
  constructor
  · have h := claim_C6 ⟨some (JVal.jstr "2023-12-31T23:59:59-10:00"),
      some (JVal.jint 250000), some (JVal.jstr "DEED"),
      some (JVal.jstr "http://doc")⟩
    rw [Bool.eq_false_iff]
    intro hc
    have := h.mp hc
    obtain ⟨⟨s, hs, hy⟩, _⟩ := this
    rw [Option.some.injEq, JVal.jstr.injEq] at hs
    rw [← hs] at hy
    exact absurd hy (by decide)
  · exact (claim_C6 ⟨some (JVal.jstr "2024-06-15T00:00:00-10:00"),
      some (JVal.jint 250000), some (JVal.jstr "DEED"),
      some (JVal.jstr "http://doc")⟩).mpr
      ⟨⟨_, rfl, by decide⟩, ⟨250000, rfl, by decide⟩, rfl, ⟨_, rfl, by decide⟩⟩

theorem filterTransfers_error_of_missing (ts : List Transfer)
    (h : ∃ t ∈ ts, t.grantor = none) : filterTransfers ts = Except.error () := by
  induction ts with
  | nil => simp at h
  | cons t rest ih =>
    obtain ⟨u, hu, hg⟩ := h
    rcases List.mem_cons.mp hu with rfl | hmem
    · simp [filterTransfers, hg]
    · cases hgt : t.grantor with
      | none => simp [filterTransfers, hgt]
      | some g =>
        have := ih ⟨u, hmem, hg⟩
        simp [filterTransfers, hgt, this]

theorem filterTransfers_ok_of_present (ts : List Transfer)
    (h : ∀ t ∈ ts, t.grantor.isSome) : ∃ l, filterTransfers ts = Except.ok l := by
  induction ts with
  | nil => exact ⟨[], rfl⟩
  | cons t rest ih =>
    obtain ⟨g, hg⟩ := Option.isSome_iff_exists.mp (h t (List.mem_cons_self t rest))
    obtain ⟨l, hl⟩ := ih (fun u hu => h u (List.mem_cons_of_mem t hu))
    exact ⟨if passes g then t :: l else l, by simp [filterTransfers, hg, hl]⟩

/-- Claim C10: in the fetch-path transfer filter only the four grantor
sub-fields are presence-checked; the lookup of the grantor sub-record
itself is unguarded, so a transfer with no `Grantor` key raises (aborting
extraction) instead of being silently skipped, while a transfers list whose
members all carry a `Grantor` key always extracts successfully. -/
theorem claim_C10 (tk : TaxMapKey) (ts : List Transfer)
    (h : tk.transfers = some ts) :
    ((∃ t ∈ ts, t.grantor = none) →
      _extract_taxmapkey_fields tk = Except.error ()) ∧
    ((∀ t ∈ ts, t.grantor.isSome) →
      ∃ r, _extract_taxmapkey_fields tk = Except.ok r) := by
  constructor
  · intro hm
    unfold _extract_taxmapkey_fields
    rw [h]
    simp [filterTransfers_error_of_missing ts hm]
  · intro hp
    obtain ⟨l, hl⟩ := filterTransfers_ok_of_present ts hp
    exact ⟨⟨tk.parcelNumber, tk.lastSaleDate, tk.lastSalePrice,
      tk.lastSaleInstrument, some l⟩, by unfold _extract_taxmapkey_fields; rw [h]; simp [hl]⟩

/-- Closed instances of claim C10: a singleton transfers list with no
`Grantor` key aborts extraction, and one carrying a `Grantor` key does
not. -/
theorem claim_C10_witness :
    _extract_taxmapkey_fields ⟨none, none, none, none, some [⟨none⟩]⟩ =
      Except.error () ∧
    ∃ r, _extract_taxmapkey_fields
      ⟨none, none, none, none, some [⟨some emptyGrantor⟩]⟩ = Except.ok r :=
  ⟨(claim_C10 _ [⟨none⟩] rfl).1 ⟨⟨none⟩, by simp, rfl⟩,
    (claim_C10 _ [⟨some emptyGrantor⟩] rfl).2 (by simp)⟩

theorem mkWrites_filterMap_reqOf (lb : Bool) (t : Nat) :
    ∀ (j : Nat) (l : List FetchedRec), (mkWrites lb t j l).filterMap reqOf = [] := by
  intro j l
  induction l generalizing j with
  | nil => rfl
  | cons r rs ih => simp [mkWrites, reqOf, ih]

theorem mkWrites_mem_of_mem (lb : Bool) (t : Nat) :
    ∀ (j : Nat) (l : List FetchedRec) (r : FetchedRec), r ∈ l →
      ∃ fl, FEvent.wrote r fl ∈ mkWrites lb t j l := by
  intro j l
  induction l generalizing j with
  | nil => intro r hr; simp at hr
  | cons x xs ih =>
    intro r hr
    rcases List.mem_cons.mp hr with rfl | hr
    · exact ⟨lb && (j + 1 == t), List.mem_cons_self _ _⟩
    · obtain ⟨fl, hfl⟩ := ih (j + 1) r hr
      exact ⟨fl, List.mem_cons_of_mem _ hfl⟩

theorem fetchBatches_reqLog (oracle : Nat → Except String ApiResponse)
    (s e b num : Nat) (hc : oracleClean oracle) :
    ∀ is : List Nat,
      (fetchBatches oracle s e b num is).1.filterMap reqOf =
        is.map (fun i => (s + i * b, min b (e - (s + i * b)))) := by
  intro is
  induction is with
  | nil => rfl
  | cons i rest ih =>
    cases ho : oracle (s + i * b) with
    | error msg => simp [fetchBatches, ho, reqOf, ih]
    | ok resp =>
      cases hd : resp.data with
      | none => simp [fetchBatches, ho, hd, reqOf, ih]
      | some items =>
        obtain ⟨l, hl⟩ := hc _ _ ho items hd
        simp [fetchBatches, ho, hd, hl, reqOf, List.filterMap_append,
          mkWrites_filterMap_reqOf, ih]

theorem fetchBatches_mem (oracle : Nat → Except String ApiResponse)
    (s e b num : Nat) (hc : oracleClean oracle) :
    ∀ (is : List Nat) (i : Nat), i ∈ is →
      (FEvent.req (s + i * b) (min b (e - (s + i * b))) ∈
        (fetchBatches oracle s e b num is).1) ∧
      (∀ msg, oracle (s + i * b) = Except.error msg →
        FEvent.errAnn (s + i * b) ∈ (fetchBatches oracle s e b num is).1) ∧
      (∀ resp items batch, oracle (s + i * b) = Except.ok resp →
        resp.data = some items → extractAll items = Except.ok batch →
        ∀ r ∈ batch, ∃ fl,
          FEvent.wrote r fl ∈ (fetchBatches oracle s e b num is).1) := by
  intro is
  induction is with
  | nil => intro i hi; simp at hi
  | cons j rest ih =>
    intro i hi
    rcases List.mem_cons.mp hi with rfl | hmem
    · refine ⟨?_, ?_, ?_⟩
      · cases ho : oracle (s + i * b) with
        | error msg => simp [fetchBatches, ho]
        | ok resp =>
          cases hd : resp.data with
          | none => simp [fetchBatches, ho, hd]
          | some items =>
            obtain ⟨l, hl⟩ := hc _ _ ho items hd
            simp [fetchBatches, ho, hd, hl]
      · intro msg ho
        simp [fetchBatches, ho]
      · intro resp items batch ho hd he r hr
        obtain ⟨fl, hfl⟩ := mkWrites_mem_of_mem (i + 1 == num) batch.length 0 batch r hr
        refine ⟨fl, ?_⟩
        simp only [fetchBatches, ho, hd, he]
        exact List.mem_cons_of_mem _ (List.mem_append_left _ hfl)
    · have hres := ih i hmem
      have lift : ∀ ev : FEvent, ev ∈ (fetchBatches oracle s e b num rest).1 →
          ev ∈ (fetchBatches oracle s e b num (j :: rest)).1 := by
        intro ev hev
        cases ho : oracle (s + j * b) with
        | error msg => simp [fetchBatches, ho, hev]
        | ok resp =>
          cases hd : resp.data with
          | none => simp [fetchBatches, ho, hd, hev]
          | some items =>
            obtain ⟨l, hl⟩ := hc _ _ ho items hd
            simp only [fetchBatches, ho, hd, hl]
            exact List.mem_cons_of_mem _ (List.mem_append_right _ hev)
      refine ⟨lift _ hres.1, ?_, ?_⟩
      · intro msg ho
        exact lift _ (hres.2.1 msg ho)
      · intro resp items batch ho hd he r hr
        obtain ⟨fl, hfl⟩ := hres.2.2 resp items batch ho hd he r hr
        exact ⟨fl, lift _ hfl⟩

/-- Claim C4: under a clean oracle, every batch of the range has its request
issued no matter which other batches fail; a batch whose request fails with
a transport or protocol error gets an error annotation naming its offset
recorded, and a batch whose request succeeds gets its extracted records
written — so a single batch failure never prevents a later batch from being
fetched and written. -/
theorem claim_C4 (oracle : Nat → Except String ApiResponse) (s e b : Nat)
    (hc : oracleClean oracle) (i : Nat) (hi : i < numRequests s e b) :
    (FEvent.req (s + i * b) (min b (e - (s + i * b))) ∈
      (fetch_results oracle s e b).1) ∧
    (∀ msg, oracle (s + i * b) = Except.error msg →
      FEvent.errAnn (s + i * b) ∈ (fetch_results oracle s e b).1) ∧
    (∀ resp items batch, oracle (s + i * b) = Except.ok resp →
      resp.data = some items → extractAll items = Except.ok batch →
      ∀ r ∈ batch, ∃ fl, FEvent.wrote r fl ∈ (fetch_results oracle s e b).1) := by
  have := fetchBatches_mem oracle s e b (numRequests s e b) hc
    (List.range (numRequests s e b)) i (List.mem_range.mpr hi)
  exact this

/-- Closed instance of claim C4: over range `[0, 2500)` with batch size
1000, an oracle failing exactly at offset 1000 still issues the request at
offset 2000, records an annotation for offset 1000, and writes the batch
fetched at offset 2000. -/
theorem claim_C4_witness :
    (FEvent.errAnn 1000 ∈
      (fetch_results (fun off => if off = 1000 then Except.error "boom"
        else Except.ok ⟨some [some ⟨some (JVal.jstr "x"), none, none, none, none⟩]⟩)
        0 2500 1000).1) ∧
    (FEvent.req 2000 500 ∈
      (fetch_results (fun off => if off = 1000 then Except.error "boom"
        else Except.ok ⟨some [some ⟨some (JVal.jstr "x"), none, none, none, none⟩]⟩)
        0 2500 1000).1) ∧
    ∃ fl, FEvent.wrote ⟨some (JVal.jstr "x"), none, none, none, none⟩ fl ∈
      (fetch_results (fun off => if off = 1000 then Except.error "boom"
        else Except.ok ⟨some [some ⟨some (JVal.jstr "x"), none, none, none, none⟩]⟩)
        0 2500 1000).1 := by
  have hc : oracleClean (fun off => if off = 1000 then Except.error "boom"
      else Except.ok ⟨some [some ⟨some (JVal.jstr "x"), none, none, none, none⟩]⟩) := by
    intro off resp h items hd
    by_cases hoff : off = 1000
    · simp [hoff] at h
    · simp only [hoff, if_false] at h
      cases h
      simp only at hd
      cases hd
      exact ⟨[⟨some (JVal.jstr "x"), none, none, none, none⟩], rfl⟩
  have h1 := claim_C4 (fun off => if off = 1000 then Except.error "boom"
    else Except.ok ⟨some [some ⟨some (JVal.jstr "x"), none, none, none, none⟩]⟩)
    0 2500 1000 hc 1 (by decide)
  have h2 := claim_C4 (fun off => if off = 1000 then Except.error "boom"
    else Except.ok ⟨some [some ⟨some (JVal.jstr "x"), none, none, none, none⟩]⟩)
    0 2500 1000 hc 2 (by decide)
  refine ⟨by simpa using h1.2.1 "boom" rfl, by simpa using h2.1, ?_⟩
  have h3 := h2.2.2 ⟨some [some ⟨some (JVal.jstr "x"), none, none, none, none⟩]⟩
    [some ⟨some (JVal.jstr "x"), none, none, none, none⟩]
    [⟨some (JVal.jstr "x"), none, none, none, none⟩]
    (by simp) rfl rfl ⟨some (JVal.jstr "x"), none, none, none, none⟩ (by simp)
  simpa using h3

/-- Claim C5: for every range `[s, e)` with `e > s` and batch size `b > 0`,
the batch fetcher issues exactly `ceil((e - s) / b)` requests, the `i`-th at
offset `s + i * b` with limit `min b (e - offset)`; `numRequests` is the
least multiple bound characterizing that ceiling. -/
theorem claim_C5 (oracle : Nat → Except String ApiResponse) (s e b : Nat)
    (hb : 0 < b) (hse : s < e) (hc : oracleClean oracle) :
    reqLog oracle s e b =
      (List.range (numRequests s e b)).map
        (fun i => (s + i * b, min b (e - (s + i * b)))) ∧
    (reqLog oracle s e b).length = numRequests s e b ∧
    e - s ≤ numRequests s e b * b ∧
    numRequests s e b * b < (e - s) + b := by
  have hlog : reqLog oracle s e b =
      (List.range (numRequests s e b)).map
        (fun i => (s + i * b, min b (e - (s + i * b)))) :=
    fetchBatches_reqLog oracle s e b (numRequests s e b) hc _
  have h1 := Nat.div_add_mod (e - s + b - 1) b
  have h2 := Nat.mod_lt (e - s + b - 1) hb
  have h3 : numRequests s e b * b = b * ((e - s + b - 1) / b) := by
    unfold numRequests; ring
  refine ⟨hlog, by rw [hlog]; simp, ?_, ?_⟩
  · rw [h3]; omega
  · rw [h3]; omega

/-- Closed instance of claim C5: over `[0, 2500)` with batch size 1000,
exactly three requests are issued, with offsets and limits
`(0, 1000), (1000, 1000), (2000, 500)`. -/
theorem claim_C5_witness :
    reqLog (fun _ => Except.ok ⟨some []⟩) 0 2500 1000 =
      [(0, 1000), (1000, 1000), (2000, 500)] ∧
    numRequests 0 2500 1000 = 3 := by
  have hc : oracleClean (fun _ => Except.ok ⟨some []⟩) := by
    intro off resp h items hd
    cases h
    simp only at hd
    cases hd
    exact ⟨[], rfl⟩
  have h := claim_C5 (fun _ => Except.ok ⟨some []⟩) 0 2500 1000
    (by decide) (by decide) hc
  refine ⟨?_, by decide⟩
  rw [h.1]
  decide

theorem procTransfers_cons_new (oracle : JVal → String) (exK : List RecordKey)
    (pn : JVal) (tmk : String) (t : Transfer) (rest : List Transfer)
    (st : StState) (hex : transferKey (some pn) t ∉ exK)
    (hnew : transferKey (some pn) t ∉ st.newKeys) :
    ∃ (r : PRec) (tax : List JVal), recKey r = transferKey (some pn) t ∧
      procTransfers oracle exK pn tmk (t :: rest) st =
        procTransfers oracle exK pn tmk rest
          ⟨transferKey (some pn) t :: st.newKeys, st.recs ++ [r],
            st.calls ++ tax⟩ := by
  refine ⟨⟨some pn, tmk, (t.grantor.getD emptyGrantor).date,
    (t.grantor.getD emptyGrantor).price, (t.grantor.getD emptyGrantor).link,
    (match (t.grantor.getD emptyGrantor).link with
      | some l => if jTruthy l then (oracle l, [l]) else ("ERROR", [])
      | none => (("ERROR" : String), ([] : List JVal))).1⟩,
    (match (t.grantor.getD emptyGrantor).link with
      | some l => if jTruthy l then (oracle l, [l]) else ("ERROR", [])
      | none => (("ERROR" : String), ([] : List JVal))).2, ?_, ?_⟩
  · rfl
  · simp only [procTransfers]
    rw [if_neg hex, if_neg hnew]

theorem procTransfers_main (oracle : JVal → String) (exK : List RecordKey)
    (pn : JVal) (tmk : String) :
    ∀ (ts : List Transfer) (st : StState),
      st.newKeys.Nodup → (∀ k ∈ st.newKeys, k ∉ exK) →
      st.recs.map recKey = st.newKeys.reverse →
      (procTransfers oracle exK pn tmk ts st).newKeys.Nodup ∧
      (∀ k ∈ (procTransfers oracle exK pn tmk ts st).newKeys, k ∉ exK) ∧
      (procTransfers oracle exK pn tmk ts st).recs.map recKey =
        (procTransfers oracle exK pn tmk ts st).newKeys.reverse ∧
      ∀ k, k ∈ (procTransfers oracle exK pn tmk ts st).newKeys ↔
        (k ∈ st.newKeys ∨ (k ∈ ts.map (transferKey (some pn)) ∧ k ∉ exK)) := by
  intro ts
  induction ts with
  | nil =>
    intro st h1 h2 h3
    exact ⟨h1, h2, h3, by intro k; simp [procTransfers]⟩
  | cons t rest ih =>
    intro st h1 h2 h3
    by_cases hex : transferKey (some pn) t ∈ exK
    · have hred : procTransfers oracle exK pn tmk (t :: rest) st =
          procTransfers oracle exK pn tmk rest st := by
        simp only [procTransfers]
        rw [if_pos hex]
      rw [hred]
      obtain ⟨g1, g2, g3, g4⟩ := ih st h1 h2 h3
      refine ⟨g1, g2, g3, ?_⟩
      intro k
      rw [g4 k]
      constructor
      · rintro (h | ⟨hk, hnk⟩)
        · exact Or.inl h
        · exact Or.inr ⟨List.mem_cons_of_mem _ hk, hnk⟩
      · rintro (h | ⟨hk, hnk⟩)
        · exact Or.inl h
        · rcases List.mem_cons.mp hk with rfl | hk'
          · exact absurd hex hnk
          · exact Or.inr ⟨hk', hnk⟩
    · by_cases hnew : transferKey (some pn) t ∈ st.newKeys
      · have hred : procTransfers oracle exK pn tmk (t :: rest) st =
            procTransfers oracle exK pn tmk rest st := by
          simp only [procTransfers]
          rw [if_neg hex, if_pos hnew]
        rw [hred]
        obtain ⟨g1, g2, g3, g4⟩ := ih st h1 h2 h3
        refine ⟨g1, g2, g3, ?_⟩
        intro k
        rw [g4 k]
        constructor
        · rintro (h | ⟨hk, hnk⟩)
          · exact Or.inl h
          · exact Or.inr ⟨List.mem_cons_of_mem _ hk, hnk⟩
        · rintro (h | ⟨hk, hnk⟩)
          · exact Or.inl h
          · rcases List.mem_cons.mp hk with rfl | hk'
            · exact Or.inl hnew
            · exact Or.inr ⟨hk', hnk⟩
      · obtain ⟨r, tax, hkey, hred⟩ :=
          procTransfers_cons_new oracle exK pn tmk t rest st hex hnew
        rw [hred]
        have h1' : (transferKey (some pn) t :: st.newKeys).Nodup :=
          List.nodup_cons.mpr ⟨hnew, h1⟩
        have h2' : ∀ k ∈ transferKey (some pn) t :: st.newKeys, k ∉ exK := by
          intro k hk
          rcases List.mem_cons.mp hk with rfl | hk'
          · exact hex
          · exact h2 k hk'
        have h3' : (st.recs ++ [r]).map recKey =
            (transferKey (some pn) t :: st.newKeys).reverse := by
          simp only [List.map_append, List.map_cons, List.map_nil,
            List.reverse_cons, h3, hkey]
        obtain ⟨g1, g2, g3, g4⟩ := ih
          ⟨transferKey (some pn) t :: st.newKeys, st.recs ++ [r],
            st.calls ++ tax⟩ h1' h2' h3'
        refine ⟨g1, g2, g3, ?_⟩
        intro k
        rw [g4 k]
        simp only
        constructor
        · rintro (h | ⟨hk, hnk⟩)
          · rcases List.mem_cons.mp h with rfl | hk'
            · exact Or.inr ⟨List.mem_cons_self _ _, hex⟩
            · exact Or.inl hk'
          · exact Or.inr ⟨List.mem_cons_of_mem _ hk, hnk⟩
        · rintro (h | ⟨hk, hnk⟩)
          · exact Or.inl (List.mem_cons_of_mem _ h)
          · rcases List.mem_cons.mp hk with rfl | hk'
            · exact Or.inl (List.mem_cons_self _ _)
            · exact Or.inr ⟨hk', hnk⟩

theorem procTMKs_main (oracle : JVal → String) (exK : List RecordKey) :
    ∀ (input : List TaxMapKey) (st : StState),
      st.newKeys.Nodup → (∀ k ∈ st.newKeys, k ∉ exK) →
      st.recs.map recKey = st.newKeys.reverse →
      (procTMKs oracle exK input st).1.newKeys.Nodup ∧
      (∀ k ∈ (procTMKs oracle exK input st).1.newKeys, k ∉ exK) ∧
      (procTMKs oracle exK input st).1.recs.map recKey =
        (procTMKs oracle exK input st).1.newKeys.reverse ∧
      (∀ k ∈ (procTMKs oracle exK input st).1.newKeys,
        k ∈ st.newKeys ∨ (k ∈ inputKeys input ∧ k ∉ exK)) ∧
      (wfInput input → ∀ k, k ∈ st.newKeys ∨ (k ∈ inputKeys input ∧ k ∉ exK) →
        k ∈ (procTMKs oracle exK input st).1.newKeys) := by
  intro input
  induction input with
  | nil =>
    intro st h1 h2 h3
    refine ⟨h1, h2, h3, fun k hk => Or.inl hk, ?_⟩
    intro _ k hk
    rcases hk with h | ⟨hk, _⟩
    · exact h
    · simp [inputKeys] at hk
  | cons tk rest ih =>
    intro st h1 h2 h3
    cases hpn : tk.parcelNumber with
    | none =>
      have hred : procTMKs oracle exK (tk :: rest) st = (st, false) := by
        simp only [procTMKs, hpn]
      rw [hred]
      refine ⟨h1, h2, h3, fun k hk => Or.inl hk, ?_⟩
      intro hwf
      obtain ⟨s, tmk, hs, _⟩ := hwf tk (List.mem_cons_self _ _)
      rw [hpn] at hs
      cases hs
    | some pv =>
      cases pv with
      | jnull =>
        have hred : procTMKs oracle exK (tk :: rest) st = (st, false) := by
          simp only [procTMKs, hpn]
        rw [hred]
        refine ⟨h1, h2, h3, fun k hk => Or.inl hk, ?_⟩
        intro hwf
        obtain ⟨s, tmk, hs, _⟩ := hwf tk (List.mem_cons_self _ _)
        rw [hpn] at hs
        cases hs
      | jint n =>
        have hred : procTMKs oracle exK (tk :: rest) st = (st, false) := by
          simp only [procTMKs, hpn]
        rw [hred]
        refine ⟨h1, h2, h3, fun k hk => Or.inl hk, ?_⟩
        intro hwf
        obtain ⟨s, tmk, hs, _⟩ := hwf tk (List.mem_cons_self _ _)
        rw [hpn] at hs
        cases hs
      | jstr s =>
        cases hconv : convert_to_tmk_format s with
        | error e =>
          have hred : procTMKs oracle exK (tk :: rest) st = (st, false) := by
            simp only [procTMKs, hpn, hconv]
          rw [hred]
          refine ⟨h1, h2, h3, fun k hk => Or.inl hk, ?_⟩
          intro hwf
          obtain ⟨s', tmk, hs, hok⟩ := hwf tk (List.mem_cons_self _ _)
          rw [hpn] at hs
          obtain ⟨rfl⟩ : s' = s := by
            injection hs with hs1
            injection hs1 with hs2
            exact hs2.symm
          rw [hconv] at hok
          cases hok
        | ok tmk =>
        have hred : procTMKs oracle exK (tk :: rest) st =
            procTMKs oracle exK rest
              (procTransfers oracle exK (JVal.jstr s) tmk
                (tk.transfers.getD []) st) := by
          simp only [procTMKs, hpn, hconv]
        rw [hred]
        obtain ⟨p1, p2, p3, p4⟩ := procTransfers_main oracle exK (JVal.jstr s)
          tmk (tk.transfers.getD []) st h1 h2 h3
        obtain ⟨g1, g2, g3, g4, g5⟩ := ih _ p1 p2 p3
        have hkeys : (tk.transfers.getD []).map (transferKey (some (JVal.jstr s))) =
            (tk.transfers.getD []).map (transferKey tk.parcelNumber) := by
          rw [hpn]
        refine ⟨g1, g2, g3, ?_, ?_⟩
        · intro k hk
          rcases g4 k hk with h | ⟨hk', hnk⟩
          · rcases (p4 k).mp h with h' | ⟨hk'', hnk'⟩
            · exact Or.inl h'
            · refine Or.inr ⟨?_, hnk'⟩
              simp only [inputKeys, List.bind_eq_flatMap, List.flatMap_cons,
                List.mem_append]
              exact Or.inl (by rw [← hkeys]; exact hk'')
          · refine Or.inr ⟨?_, hnk⟩
            simp only [inputKeys, List.bind_eq_flatMap, List.flatMap_cons,
              List.mem_append]
            simp only [inputKeys, List.bind_eq_flatMap] at hk'
            exact Or.inr hk'
        · intro hwf k hk
          have hwf' : wfInput rest := fun u hu => hwf u (List.mem_cons_of_mem _ hu)
          refine g5 hwf' k ?_
          rcases hk with h | ⟨hk', hnk⟩
          · exact Or.inl ((p4 k).mpr (Or.inl h))
          · simp only [inputKeys, List.bind_eq_flatMap, List.flatMap_cons,
              List.mem_append] at hk'
            rcases hk' with h' | h'
            · exact Or.inl ((p4 k).mpr (Or.inr ⟨by rw [hkeys]; exact h', hnk⟩))
            · refine Or.inr ⟨?_, hnk⟩
              simp only [inputKeys, List.bind_eq_flatMap]
              exact h'

theorem process_run_nodup (oracle : JVal → String) (base : List PRec)
    (input : List TaxMapKey) (h : (base.map recKey).Nodup) :
    ((base ++ (process_housing_data oracle base input).1.recs).map recKey).Nodup := by
  obtain ⟨g1, g2, g3, _, _⟩ := procTMKs_main oracle (base.map recKey) input
    ⟨[], [], []⟩ (by simp) (by simp) (by simp)
  rw [List.map_append]
  refine List.Nodup.append h ?_ ?_
  · unfold process_housing_data
    rw [g3]
    exact List.nodup_reverse.mpr g1
  · intro k hk hk'
    unfold process_housing_data at hk'
    rw [g3] at hk'
    rw [List.mem_reverse] at hk'
    exact g2 k hk' hk

theorem multiRun_nodup (oracle : JVal → String)
    (runs : List (Bool × List TaxMapKey)) :
    ((multiRun oracle runs).map recKey).Nodup := by
  suffices h : ∀ (rs : List (Bool × List TaxMapKey)) (file : List PRec),
      (file.map recKey).Nodup →
      ((rs.foldl (fun file run =>
        let base := if run.1 then file else []
        base ++ (process_housing_data oracle base run.2).1.recs) file).map
          recKey).Nodup by
    exact h runs [] (by simp)
  intro rs
  induction rs with
  | nil => intro file h; exact h
  | cons run rest ih =>
    intro file h
    simp only [List.foldl_cons]
    apply ih
    obtain ⟨p, inp⟩ := run
    cases p
    · simpa using process_run_nodup oracle [] inp (by simp)
    · simpa using process_run_nodup oracle file inp h

/-- Claim C1: for every `RecordKey`, at most one persisted record with that
key exists in the output file after any number of enrichment runs against
the same file: candidate keys are checked against both the records loaded
at process start and the records written earlier in the current run, so
cross-run and intra-run duplicates are both suppressed. -/
theorem claim_C1 (oracle : JVal → String)
    (runs : List (Bool × List TaxMapKey)) (k : RecordKey) :
    ((multiRun oracle runs).map recKey).count k ≤ 1 :=
  List.nodup_iff_count_le_one.mp (multiRun_nodup oracle runs) k

theorem parseArrayTail_toksRecs :
    ∀ (n : Nat) (ts : List FTok) (rs : List PRec), ts.length ≤ n →
      parseArrayTail ts = some rs → toksRecs ts = rs := by
  intro n
  induction n with
  | zero =>
    intro ts rs hlen h
    cases ts with
    | nil => simp [parseArrayTail] at h
    | cons a t => simp at hlen
  | succ n ih =>
    intro ts rs hlen h
    cases ts with
    | nil => simp [parseArrayTail] at h
    | cons a t =>
      cases a with
      | obrk => simp [parseArrayTail] at h
      | item r => simp [parseArrayTail] at h
      | cbrk =>
        cases t with
        | nil =>
          simp only [parseArrayTail, Option.some.injEq] at h
          simp [toksRecs, ← h]
        | cons b t' => simp [parseArrayTail] at h
      | comma =>
        cases t with
        | nil => simp [parseArrayTail] at h
        | cons b t' =>
          cases b with
          | obrk => simp [parseArrayTail] at h
          | cbrk => simp [parseArrayTail] at h
          | comma => simp [parseArrayTail] at h
          | item r =>
            simp only [parseArrayTail, Option.map_eq_some'] at h
            obtain ⟨rs', hp, hrs⟩ := h
            have hlen' : t'.length ≤ n := by
              simp only [List.length_cons] at hlen
              omega
            have := ih t' rs' hlen' hp
            simp [toksRecs, this, ← hrs]

theorem parseArray_toksRecs (ts : List FTok) (rs : List PRec)
    (h : parseArray ts = some rs) : toksRecs ts = rs := by
  cases ts with
  | nil => simp [parseArray] at h
  | cons a t =>
    cases a with
    | cbrk => simp [parseArray] at h
    | comma => simp [parseArray] at h
    | item r => simp [parseArray] at h
    | obrk =>
      cases t with
      | nil => simp [parseArray] at h
      | cons b t' =>
        cases b with
        | obrk => simp [parseArray] at h
        | comma => simp [parseArray] at h
        | cbrk =>
          cases t' with
          | nil =>
            simp only [parseArray, Option.some.injEq] at h
            simp [toksRecs, ← h]
          | cons c t'' => simp [parseArray] at h
        | item r =>
          simp only [parseArray, Option.map_eq_some'] at h
          obtain ⟨rs', hp, hrs⟩ := h
          have := parseArrayTail_toksRecs t'.length t' rs' le_rfl hp
          simp [toksRecs, this, ← hrs]

theorem toksRecs_append (a b : List FTok) :
    toksRecs (a ++ b) = toksRecs a ++ toksRecs b := by
  induction a with
  | nil => rfl
  | cons x t ih => cases x <;> simp [toksRecs, ih]

theorem toksRecs_emitAppends :
    ∀ (first : Bool) (rs : List PRec), toksRecs (emitAppends first rs) = rs := by
  intro first rs
  induction rs generalizing first with
  | nil => rfl
  | cons r t ih => cases first <;> simp [emitAppends, toksRecs, ih]

theorem length_eq_of_nodup_iff (l₁ l₂ : List RecordKey) (h₁ : l₁.Nodup)
    (h₂ : l₂.Nodup) (h : ∀ k, k ∈ l₁ ↔ k ∈ l₂) : l₁.length = l₂.length := by
  have ht : l₁.toFinset = l₂.toFinset := by
    ext k
    simpa [List.mem_toFinset] using h k
  rw [← List.toFinset_card_of_nodup h₁, ← List.toFinset_card_of_nodup h₂, ht]

/-- Claim C3: re-running the enrichment step against an output file that
parses to `N` records, on a well-formed input (every record carries a
string parcel number on which the TMK formatter succeeds, so the run never
aborts) covering exactly those `N` keys plus `M` fresh pairwise-distinct
keys, leaves the prior file content byte-for-byte unchanged as an untouched
leading segment (records are only appended, never rewritten) and yields a
file containing exactly `N + M` records. -/
theorem claim_C3 (oracle : JVal → String) (file : List FTok)
    (exRecs : List PRec) (input : List TaxMapKey) (newKs : List RecordKey)
    (hparse : parseArray file = some exRecs)
    (hwf : wfInput input)
    (hnodup : newKs.Nodup)
    (hdisj : ∀ k ∈ newKs, k ∉ exRecs.map recKey)
    (hcover : ∀ k ∈ inputKeys input, k ∈ exRecs.map recKey ∨ k ∈ newKs)
    (hnew : ∀ k ∈ newKs, k ∈ inputKeys input) :
    (∃ rest, runFileTokens oracle file input = file ++ rest) ∧
    (toksRecs (runFileTokens oracle file input)).length =
      exRecs.length + newKs.length := by
  obtain ⟨g1, g2, g3, g4, g5⟩ := procTMKs_main oracle (exRecs.map recKey) input
    ⟨[], [], []⟩ (by simp) (by simp) (by simp)
  have hiff : ∀ k,
      k ∈ (procTMKs oracle (exRecs.map recKey) input ⟨[], [], []⟩).1.newKeys ↔
      k ∈ newKs := by
    intro k
    constructor
    · intro hk
      rcases g4 k hk with h | ⟨hin, hnot⟩
      · simp at h
      · rcases hcover k hin with h' | h'
        · exact absurd h' hnot
        · exact h'
    · intro hk
      exact g5 hwf k (Or.inr ⟨hnew k hk, hdisj k hk⟩)
  have hklen :
      (procTMKs oracle (exRecs.map recKey) input ⟨[], [], []⟩).1.newKeys.length =
        newKs.length :=
    length_eq_of_nodup_iff _ newKs g1 hnodup hiff
  have hrlen :
      (procTMKs oracle (exRecs.map recKey) input ⟨[], [], []⟩).1.recs.length =
        newKs.length := by
    have := congrArg List.length g3
    simp only [List.length_map, List.length_reverse] at this
    rw [this, hklen]
  have hrun : runFileTokens oracle file input =
      file ++ (emitAppends (exRecs.length == 0)
        (process_housing_data oracle exRecs input).1.recs ++ [FTok.cbrk]) := by
    unfold runFileTokens
    rw [hparse]
    exact List.append_assoc _ _ _
  refine ⟨⟨_, hrun⟩, ?_⟩
  rw [hrun, toksRecs_append, toksRecs_append, toksRecs_emitAppends,
    parseArray_toksRecs file exRecs hparse]
  simp only [toksRecs, List.length_append, List.length_nil]
  unfold process_housing_data
  rw [hrlen]
  omega

/-- Closed instance of claim C3: a file holding one record, re-run with an
input holding that record's transfer plus one new transfer, keeps the file
as a leading segment and ends with exactly two records. -/
theorem claim_C3_witness :
    (∃ rest, runFileTokens (fun _ => "77")
      [FTok.obrk, FTok.item ⟨some (JVal.jstr "P1"), "P1", some (JVal.jstr "d1"),
        some (JVal.jint 1), some (JVal.jstr "L1"), "100"⟩, FTok.cbrk]
      [⟨some (JVal.jstr "P1"), none, none, none,
        some [⟨some ⟨some (JVal.jstr "d1"), some (JVal.jint 1), none,
          some (JVal.jstr "L1")⟩⟩,
          ⟨some ⟨some (JVal.jstr "d2"), some (JVal.jint 2), none,
            some (JVal.jstr "L2")⟩⟩]⟩] =
      [FTok.obrk, FTok.item ⟨some (JVal.jstr "P1"), "P1", some (JVal.jstr "d1"),
        some (JVal.jint 1), some (JVal.jstr "L1"), "100"⟩, FTok.cbrk] ++ rest) ∧
    (toksRecs (runFileTokens (fun _ => "77")
      [FTok.obrk, FTok.item ⟨some (JVal.jstr "P1"), "P1", some (JVal.jstr "d1"),
        some (JVal.jint 1), some (JVal.jstr "L1"), "100"⟩, FTok.cbrk]
      [⟨some (JVal.jstr "P1"), none, none, none,
        some [⟨some ⟨some (JVal.jstr "d1"), some (JVal.jint 1), none,
          some (JVal.jstr "L1")⟩⟩,
          ⟨some ⟨some (JVal.jstr "d2"), some (JVal.jint 2), none,
            some (JVal.jstr "L2")⟩⟩]⟩])).length = 2 := by
  have h := claim_C3 (fun _ => "77")
    [FTok.obrk, FTok.item ⟨some (JVal.jstr "P1"), "P1", some (JVal.jstr "d1"),
      some (JVal.jint 1), some (JVal.jstr "L1"), "100"⟩, FTok.cbrk]
    [⟨some (JVal.jstr "P1"), "P1", some (JVal.jstr "d1"),
      some (JVal.jint 1), some (JVal.jstr "L1"), "100"⟩]
    [⟨some (JVal.jstr "P1"), none, none, none,
      some [⟨some ⟨some (JVal.jstr "d1"), some (JVal.jint 1), none,
        some (JVal.jstr "L1")⟩⟩,
        ⟨some ⟨some (JVal.jstr "d2"), some (JVal.jint 2), none,
          some (JVal.jstr "L2")⟩⟩]⟩]
    [⟨some (JVal.jstr "P1"), some (JVal.jstr "d2"), some (JVal.jint 2),
      some (JVal.jstr "L2")⟩]
    (by decide)
    (by
      intro tk htk
      rw [List.mem_singleton] at htk
      subst htk
      exact ⟨"P1", "P1", rfl, rfl⟩)
    (by decide) (by decide) (by decide) (by decide)
  exact ⟨h.1, by simpa using h.2⟩

/-- Claim C9: a not-yet-seen transfer whose grantor has an absent, empty or
null document link is not skipped by the enrichment step: a record is still
appended for it, with `ConveyanceTax` set to the literal `"ERROR"`, and the
external tax extractor is never invoked — the enrichment path does not
re-apply the selection predicate. -/
theorem claim_C9 (oracle : JVal → String) (existing : List PRec)
    (tk : TaxMapKey) (s tmk : String) (t : Transfer) (g : Grantor)
    (hpn : tk.parcelNumber = some (JVal.jstr s))
    (htmk : convert_to_tmk_format s = Except.ok tmk)
    (hts : tk.transfers = some [t])
    (hg : t.grantor = some g)
    (hlink : ∀ l, g.link = some l → jTruthy l = false)
    (hnotseen : transferKey (some (JVal.jstr s)) t ∉ existing.map recKey) :
    (process_housing_data oracle existing [tk]).1.recs =
      [⟨some (JVal.jstr s), tmk, g.date, g.price, g.link, "ERROR"⟩] ∧
    (process_housing_data oracle existing [tk]).1.calls = [] := by
  have hgd : t.grantor.getD emptyGrantor = g := by rw [hg]; rfl
  have hred : process_housing_data oracle existing [tk] =
      (procTransfers oracle (existing.map recKey) (JVal.jstr s)
        tmk [t] ⟨[], [], []⟩, true) := by
    unfold process_housing_data
    simp only [procTMKs, hpn, htmk, hts, Option.getD_some]
  have hstep : procTransfers oracle (existing.map recKey) (JVal.jstr s)
      tmk [t] ⟨[], [], []⟩ =
      ⟨[transferKey (some (JVal.jstr s)) t],
        [⟨some (JVal.jstr s), tmk, g.date, g.price, g.link, "ERROR"⟩],
        []⟩ := by
    simp only [procTransfers, hgd]
    rw [if_neg hnotseen, if_neg (List.not_mem_nil _)]
    cases hl : g.link with
    | none => simp [procTransfers]
    | some l =>
      have := hlink l hl
      simp [procTransfers, this]
  rw [hred, hstep]
  exact ⟨rfl, rfl⟩

/-- Closed instance of claim C9: a transfer with no link at all is appended
with `ConveyanceTax = "ERROR"` and no extractor call, for any oracle
behavior. -/
theorem claim_C9_witness :
    (process_housing_data (fun _ => "100") []
      [⟨some (JVal.jstr "P1"), none, none, none,
        some [⟨some ⟨some (JVal.jstr "d1"), some (JVal.jint 1), none,
          none⟩⟩]⟩]).1.recs =
      [⟨some (JVal.jstr "P1"), "P1", some (JVal.jstr "d1"),
        some (JVal.jint 1), none, "ERROR"⟩] ∧
    (process_housing_data (fun _ => "100") []
      [⟨some (JVal.jstr "P1"), none, none, none,
        some [⟨some ⟨some (JVal.jstr "d1"), some (JVal.jint 1), none,
          none⟩⟩]⟩]).1.calls = [] := by
  have h := claim_C9 (fun _ => "100") []
    ⟨some (JVal.jstr "P1"), none, none, none,
      some [⟨some ⟨some (JVal.jstr "d1"), some (JVal.jint 1), none, none⟩⟩]⟩
    "P1" "P1" ⟨some ⟨some (JVal.jstr "d1"), some (JVal.jint 1), none, none⟩⟩
    ⟨some (JVal.jstr "d1"), some (JVal.jint 1), none, none⟩
    rfl rfl rfl rfl (by intro l hl; cases hl) (by simp)
  exact ⟨h.1, h.2⟩

/-- Claim C2 fails on the code: the first enrichment run against a fresh
file produces a single well-formed array, but the second run against that
same file appends a separator, the new record and a second closing bracket
after the existing closing bracket, so the file no longer parses as a
single array — the framing invariant is not maintained between successive
invocations. -/
theorem claim_C2 :
    parseArray (runFileTokens (fun _ => "100") []
      [⟨some (JVal.jstr "P1"), none, none, none,
        some [⟨some ⟨some (JVal.jstr "d1"), some (JVal.jint 1), none,
          some (JVal.jstr "L1")⟩⟩]⟩]) =
      some [⟨some (JVal.jstr "P1"), "P1", some (JVal.jstr "d1"),
        some (JVal.jint 1), some (JVal.jstr "L1"), "100"⟩] ∧
    runFileTokens (fun _ => "100")
      (runFileTokens (fun _ => "100") []
        [⟨some (JVal.jstr "P1"), none, none, none,
          some [⟨some ⟨some (JVal.jstr "d1"), some (JVal.jint 1), none,
            some (JVal.jstr "L1")⟩⟩]⟩])
      [⟨some (JVal.jstr "P1"), none, none, none,
        some [⟨some ⟨some (JVal.jstr "d1"), some (JVal.jint 1), none,
          some (JVal.jstr "L1")⟩⟩,
          ⟨some ⟨some (JVal.jstr "d2"), some (JVal.jint 2), none,
            some (JVal.jstr "L2")⟩⟩]⟩] =
      (runFileTokens (fun _ => "100") []
        [⟨some (JVal.jstr "P1"), none, none, none,
          some [⟨some ⟨some (JVal.jstr "d1"), some (JVal.jint 1), none,
            some (JVal.jstr "L1")⟩⟩]⟩]) ++
        [FTok.comma, FTok.item ⟨some (JVal.jstr "P1"), "P1",
          some (JVal.jstr "d2"), some (JVal.jint 2), some (JVal.jstr "L2"),
          "100"⟩, FTok.cbrk] ∧
    parseArray (runFileTokens (fun _ => "100")
      (runFileTokens (fun _ => "100") []
        [⟨some (JVal.jstr "P1"), none, none, none,
          some [⟨some ⟨some (JVal.jstr "d1"), some (JVal.jint 1), none,
            some (JVal.jstr "L1")⟩⟩]⟩])
      [⟨some (JVal.jstr "P1"), none, none, none,
        some [⟨some ⟨some (JVal.jstr "d1"), some (JVal.jint 1), none,
          some (JVal.jstr "L1")⟩⟩,
          ⟨some ⟨some (JVal.jstr "d2"), some (JVal.jint 2), none,
            some (JVal.jstr "L2")⟩⟩]⟩]) = none := by
  refine ⟨by decide, by decide, by decide⟩
